import Mathlib

/-!
Shallow embedding of the asynq-hub task lifecycle / worker-routing subsystem.

Sources embedded here (Go):
 - the queue-group worker registry (`workers.Config`, `workers.Store.Upsert`,
   `Config.FullQueueName`, `Store.HasQueue`, ...);
 - the validation middleware (`internal/middleware/validation.go`);
 - the enqueue option builder (`asynqx.EnqueueParams` / `EnqueueOptions`) and
   `asynqx.NewTaskID`;
 - the task HTTP handlers (`internal/server/handler/task_handler.go`):
   `CreateTask`, `ReplayTask`, `ReportAttempt`, `BatchRetry`;
 - the SDK reliability helper `ReportWithRetry` (`sdk/reliability.go`) and the
   SDK `Worker.fullQueueName`.

Modelling conventions:
 - Go `map[string]T` values are modelled as association lists `List (String × T)`
   (lookup by first key match); the worker registry map is a total function
   `String → Option Config`; the `task` table is an association list keyed by
   `task_id`; the `task_attempt` table is an append-only `List Attempt`.
 - `time.Time` values are modelled as integers (nanoseconds); the Go zero time
   is `0`; `time.Duration` is an integer nanosecond count.
 - Randomness (`asynqx.NewTaskID`, which hex-encodes 16 bytes from crypto/rand)
   is resolved by passing the random bytes / the generated id as an explicit
   argument to the handler being modelled.
 - Broker (asynq) calls are recorded in the state (`brokerCalls`); whether the
   broker accepts a submission is resolved by an oracle argument.
 - Database writes are modelled as always succeeding (the claims under study
   do not exercise store transport failures).
-/

namespace AsynqHub

/-! ## Validation middleware (internal/middleware/validation.go) -/

/-- `MaxPayloadSize = 2 * 1024 * 1024` (2 MiB). -/
def maxPayloadSize : Nat := 2 * 1024 * 1024

/-- One character of the class `[a-zA-Z0-9_-]`. -/
def isWordChar (c : Char) : Bool :=
  c.isAlpha || c.isDigit || c = '_' || c = '-'

/-- One character of the class `[a-zA-Z0-9-]` (task ids: no underscore). -/
def isTaskIDChar (c : Char) : Bool :=
  c.isAlpha || c.isDigit || c = '-'

/-- `ValidateWorkerName`: `^[a-zA-Z0-9_-]{3,64}$`. -/
def validateWorkerName (s : String) : Bool :=
  decide (3 ≤ s.length) && decide (s.length ≤ 64) && s.data.all isWordChar

/-- `ValidateQueueName`: `^[a-zA-Z0-9_-]{1,64}$`. -/
def validateQueueName (s : String) : Bool :=
  decide (1 ≤ s.length) && decide (s.length ≤ 64) && s.data.all isWordChar

/-- `ValidateTaskID`: `^[a-zA-Z0-9-]{1,128}$`. -/
def validateTaskID (s : String) : Bool :=
  decide (1 ≤ s.length) && decide (s.length ≤ 128) && s.data.all isTaskIDChar

/-! ## Worker registry: queue-group generation of `workers.Config` / `workers.Store` -/

/-- `QueueGroupConfig`: name, concurrency, priority-name → weight map. -/
structure QueueGroupConfig where
  name : String
  concurrency : Int
  priorities : List (String × Int)
  deriving Repr, DecidableEq

/-- `workers.Config` (queue-group generation). -/
structure Config where
  workerName : String
  baseURL : String := ""
  redisAddr : String := ""
  queueGroups : List QueueGroupConfig
  defaultRetryCount : Int := 0
  defaultTimeout : Int := 0
  defaultDelay : Int := 0
  isEnabled : Bool := false
  deriving Repr, DecidableEq

/-- Go `strings.TrimSpace`: strip leading and trailing whitespace (written as
    an explicit list computation so that it reduces inside the kernel). -/
def trimSpace (s : String) : String :=
  ⟨((s.data.dropWhile Char.isWhitespace).reverse.dropWhile Char.isWhitespace).reverse⟩

/-- `DefaultPriorities = map[string]int{critical: 50, default: 30, low: 10}`. -/
def defaultPriorities : List (String × Int) :=
  [("critical", 50), ("default", 30), ("low", 10)]

/-- `Config.GetQueueGroup`: first queue group with the given name. -/
def Config.getQueueGroup (c : Config) (g : String) : Option QueueGroupConfig :=
  c.queueGroups.find? (fun qg => qg.name = g)

/-- `Config.HasQueueGroup`. -/
def Config.hasQueueGroup (c : Config) (g : String) : Bool :=
  (c.getQueueGroup g).isSome

/-- `Config.HasQueueWithPriority`. -/
def Config.hasQueueWithPriority (c : Config) (g p : String) : Bool :=
  match c.getQueueGroup g with
  | none => false
  | some qg => ((qg.priorities.find? (fun kv => kv.1 = p)).isSome : Bool)

/-- `Config.FullQueueName`: `fmt.Sprintf("%s:%s:%s", c.WorkerName, queueGroupName, priority)`. -/
def Config.fullQueueName (c : Config) (queueGroupName priority : String) : String :=
  c.workerName ++ ":" ++ queueGroupName ++ ":" ++ priority

/-- The in-memory registry map (`Store.items`), keyed by worker name. -/
abbrev WorkerMap := String → Option Config

/-- The per-group normalisation performed inside `Store.Upsert`'s loop body
    (defaults for concurrency and priorities). -/
def fixGroup (qg : QueueGroupConfig) : QueueGroupConfig :=
  { qg with
    concurrency := if qg.concurrency ≤ 0 then 10 else qg.concurrency,
    priorities := if qg.priorities = [] then defaultPriorities else qg.priorities }

/-- `Store.Upsert`'s queue-group validation/defaulting loop: error on the first
    empty group name, otherwise normalise every group. -/
def fixGroups : List QueueGroupConfig → Except String (List QueueGroupConfig)
  | [] => .ok []
  | qg :: rest =>
    if qg.name = "" then .error "queue_group name 不能为空"
    else (fixGroups rest).map (fun l => fixGroup qg :: l)

/-- `Store.Upsert` (queue-group generation): validates, fills defaults and
    replaces the stored row for the trimmed worker name. -/
def Store.upsert (items : WorkerMap) (c : Config) :
    Except String (Config × WorkerMap) :=
  let name := trimSpace c.workerName
  if name = "" then .error "worker_name 不能为空"
  else if c.queueGroups = [] then .error "queue_groups 不能为空"
  else
    match fixGroups c.queueGroups with
    | .error e => .error e
    | .ok gs =>
      let c2 : Config :=
        { c with
          workerName := name,
          queueGroups := gs,
          defaultRetryCount := if c.defaultRetryCount ≤ 0 then 3 else c.defaultRetryCount,
          defaultTimeout := if c.defaultTimeout ≤ 0 then 30 else c.defaultTimeout,
          defaultDelay := if c.defaultDelay < 0 then 0 else c.defaultDelay }
      .ok (c2, fun k => if k = name then some c2 else items k)

/-- `Store.HasQueue` (queue-group generation): worker exists and has the group. -/
def Store.hasQueue (items : WorkerMap) (workerName queueGroupName : String) : Bool :=
  match items workerName with
  | none => false
  | some w => w.hasQueueGroup queueGroupName

/-! ## SDK worker (`sdk` package, queue-group worker) -/

/-- The part of the SDK `Worker` needed for queue naming. -/
structure SdkWorker where
  workerName : String
  deriving Repr, DecidableEq

/-- SDK `Worker.fullQueueName`: `fmt.Sprintf("%s:%s:%s", w.workerName, queueGroup, priority)`. -/
def SdkWorker.fullQueueName (w : SdkWorker) (queueGroup priority : String) : String :=
  w.workerName ++ ":" ++ queueGroup ++ ":" ++ priority

/-- The spec's derived routing key, written from the spec's words:
    `worker_name + ":" + queue_group_name + ":" + priority_name`. -/
def routingKey (workerName queueGroupName priorityName : String) : String :=
  workerName ++ ":" ++ queueGroupName ++ ":" ++ priorityName

/-! ## `asynqx.NewTaskID` (16 random bytes, hex-encoded to 32 chars) -/

/-- Lower-case hex digit of a value `< 16`. -/
def hexDigit (n : Nat) : Char :=
  if n < 10 then Char.ofNat (48 + n) else Char.ofNat (87 + n)

/-- Hex encoding of one byte (two characters). -/
def hexBytePair (b : Nat) : List Char :=
  [hexDigit (b / 16 % 16), hexDigit (b % 16)]

/-- `asynqx.NewTaskID`: hex encoding of the given random bytes
    (the Go code draws 16 bytes from crypto/rand). -/
def newTaskID (bytes : List Nat) : String :=
  ⟨(bytes.map hexBytePair).flatten⟩

/-! ## `asynqx.EnqueueParams` / `EnqueueOptions` -/

/-- `asynqx.EnqueueParams`; `runAt = none` models the zero `time.Time`. -/
structure EnqueueParams where
  taskType : String := ""
  taskKey : String := ""
  queue : String := ""
  maxRetry : Int := 0
  timeoutSeconds : Int := 0
  delaySeconds : Int := 0
  runAt : Option Int := none
  payload : String := ""
  deriving Repr, DecidableEq

/-- The asynq options the builder can emit (broker interface boundary).
    `unique` carries the uniqueness window in hours (`24*time.Hour`). -/
inductive AsynqOption where
  | queueOpt (name : String)
  | maxRetry (n : Int)
  | timeout (seconds : Int)
  | processIn (seconds : Int)
  | processAt (t : Int)
  | unique (windowHours : Int)
  deriving Repr, DecidableEq

/-- `asynqx.EnqueueOptions`: translates params into asynq options; the
    idempotency directive `Unique(24h)` is attached iff `TaskKey` is non-empty. -/
def enqueueOptions (p : EnqueueParams) : List AsynqOption :=
  (if p.queue = "" then [] else [AsynqOption.queueOpt p.queue]) ++
  (if p.maxRetry > 0 then [AsynqOption.maxRetry p.maxRetry] else []) ++
  (if p.timeoutSeconds > 0 then [AsynqOption.timeout p.timeoutSeconds] else []) ++
  (if p.delaySeconds > 0 then [AsynqOption.processIn p.delaySeconds] else []) ++
  (match p.runAt with
   | some t => if t ≠ 0 then [AsynqOption.processAt t] else []
   | none => []) ++
  (if p.taskKey = "" then [] else [AsynqOption.unique 24])

/-! ## Task ledger entities (`internal/repository`) -/

/-- `repository.Task` (persisted columns; `created_at`/`updated_at` are
    store-managed timestamps and are not modelled). -/
structure Task where
  taskID : String
  workerName : String
  queue : String
  priority : Int := 0
  payload : String
  status : String
  lastAttempt : Int := 0
  lastError : String := ""
  lastWorkerName : String := ""
  traceID : String := ""
  deriving Repr, DecidableEq

/-- `repository.Attempt` (append-only log row). -/
structure Attempt where
  taskID : String
  asynqTaskID : String := ""
  attempt : Int
  status : String
  startedAt : Int
  finishedAt : Option Int := none
  durationMs : Option Int := none
  error : String := ""
  workerName : String := ""
  traceID : String := ""
  spanID : String := ""
  deriving Repr, DecidableEq

/-- The `task` table: association list keyed by `task_id`. -/
abbrev TaskTable := List (String × Task)

/-- `GetTask`: lookup by `task_id` (none models the not-found error). -/
def getTaskRow (tbl : TaskTable) (id : String) : Option Task :=
  (List.find? (fun kv => kv.1 = id) tbl).map (fun kv => kv.2)

/-- `UpsertTask`: insert, or replace the row with the same `task_id`. -/
def upsertTaskRow (tbl : TaskTable) (t : Task) : TaskTable :=
  if (List.find? (fun kv => kv.1 = t.taskID) tbl).isSome then
    List.map (fun kv => if kv.1 = t.taskID then (t.taskID, t) else kv) tbl
  else
    tbl ++ [(t.taskID, t)]

/-! ## Server state and HTTP-level outcomes -/

/-- One `asynq.Client.Enqueue` call as seen at the broker boundary:
    the task's type name, its marshalled message, and the option list. -/
structure Submission where
  taskType : String
  msgID : String
  msgTaskID : String
  msgPayload : String
  opts : List AsynqOption
  deriving Repr, DecidableEq

/-- The queue a submission is enqueued under: the (last) `Queue` option,
    or asynq's default queue `"default"` when absent. -/
def Submission.queueName (s : Submission) : String :=
  (List.foldl (fun acc o => match o with
     | AsynqOption.queueOpt q => q
     | _ => acc) "default" s.opts)

/-- Control-plane state touched by the task handlers. -/
structure ServerState where
  workers : WorkerMap
  tasks : TaskTable
  attempts : List Attempt
  brokerCalls : List Submission

/-- HTTP error classes used by the handlers. -/
inductive HError where
  | badRequest (msg : String)
  | notFound (msg : String)
  | internal (msg : String)
  deriving Repr, DecidableEq

/-! ## `TaskHandler.CreateTask` (task_handler.go)

The handler is modelled with the asynq client and the task repository
configured (the nil checks return 503/501 before any logic the claims are
about).  `gen` resolves the one potential `asynqx.NewTaskID` call; the
`brokerAccepts` oracle resolves the broker's accept/reject decision. -/

/-- The bound JSON body of `CreateTask` (`run_at = none` models a nil pointer). -/
structure CreateTaskRequest where
  workerName : String
  queue : String
  taskID : String := ""
  payload : String
  delaySeconds : Int := 0
  runAt : Option Int := none
  deriving Repr, DecidableEq

/-- `dto.CreateTaskResponse` (the broker-assigned id is not modelled). -/
structure CreateTaskResponse where
  taskID : String
  workerName : String
  queue : String
  status : String
  deriving Repr, DecidableEq

def createTask (gen : String) (brokerAccepts : Bool) (st : ServerState)
    (req : CreateTaskRequest) : Except HError CreateTaskResponse × ServerState :=
  if !validateWorkerName req.workerName then
    (.error (.badRequest "worker_name 格式无效"), st)
  else if !validateQueueName req.queue then
    (.error (.badRequest "queue 格式无效"), st)
  else if req.taskID ≠ "" && !validateTaskID req.taskID then
    (.error (.badRequest "task_id 格式无效"), st)
  else if req.payload.utf8ByteSize > maxPayloadSize then
    (.error (.badRequest "payload 过大，最大 2MB"), st)
  else
    match st.workers req.workerName with
    | none => (.error (.badRequest "worker 不存在"), st)
    | some workerCfg =>
      if !workerCfg.isEnabled then
        (.error (.badRequest "worker 未启用"), st)
      else if !Store.hasQueue st.workers req.workerName req.queue then
        (.error (.badRequest "队列不存在于 worker 配置中"), st)
      else
        let taskID := if req.taskID = "" then gen else req.taskID
        let fullQueue := req.workerName ++ ":" ++ req.queue
        let p : EnqueueParams :=
          { taskType := fullQueue, taskKey := taskID, queue := fullQueue,
            maxRetry := workerCfg.defaultRetryCount,
            timeoutSeconds := workerCfg.defaultTimeout,
            delaySeconds := req.delaySeconds,
            runAt := req.runAt,
            payload := req.payload }
        let sub : Submission :=
          { taskType := fullQueue, msgID := taskID, msgTaskID := taskID,
            msgPayload := req.payload, opts := enqueueOptions p }
        let st1 := { st with brokerCalls := st.brokerCalls ++ [sub] }
        if !brokerAccepts then
          (.error (.internal "enqueue failed"), st1)
        else
          let row : Task :=
            { taskID := taskID, workerName := req.workerName, queue := fullQueue,
              priority := 0, payload := req.payload, status := "pending",
              lastAttempt := 0 }
          (.ok { taskID := taskID, workerName := req.workerName,
                 queue := req.queue, status := "enqueued" },
           { st1 with tasks := upsertTaskRow st1.tasks row })

/-! ## `TaskHandler.ReplayTask` -/

/-- `dto.ReplayTaskRequest`. -/
structure ReplayTaskRequest where
  delay : Int := 0
  deriving Repr, DecidableEq

/-- `dto.ReplayTaskResponse`. -/
structure ReplayTaskResponse where
  status : String
  newTaskID : String
  deriving Repr, DecidableEq

def replayTask (gen : String) (brokerAccepts : Bool) (st : ServerState)
    (taskID : String) (req : ReplayTaskRequest) :
    Except HError ReplayTaskResponse × ServerState :=
  match getTaskRow st.tasks taskID with
  | none => (.error (.notFound "task 不存在"), st)
  | some t =>
    if t.status ≠ "success" && t.status ≠ "fail" then
      (.error (.badRequest "只能重放已结束的任务（success/fail）"), st)
    else
      match st.workers t.workerName with
      | none => (.error (.badRequest "worker 不存在"), st)
      | some workerCfg =>
        let newTaskID := gen
        let p : EnqueueParams :=
          { taskType := t.queue, taskKey := newTaskID, queue := t.queue,
            maxRetry := workerCfg.defaultRetryCount,
            timeoutSeconds := workerCfg.defaultTimeout,
            delaySeconds := req.delay,
            payload := t.payload }
        let sub : Submission :=
          { taskType := t.queue, msgID := newTaskID, msgTaskID := newTaskID,
            msgPayload := t.payload, opts := enqueueOptions p }
        let st1 := { st with brokerCalls := st.brokerCalls ++ [sub] }
        if !brokerAccepts then
          (.error (.internal "enqueue failed"), st1)
        else
          let row : Task :=
            { taskID := newTaskID, workerName := t.workerName, queue := t.queue,
              priority := t.priority, payload := t.payload, status := "pending",
              lastAttempt := 0 }
          (.ok { status := "replayed", newTaskID := newTaskID },
           { st1 with tasks := upsertTaskRow st1.tasks row })

/-! ## `TaskHandler.ReportAttempt` -/

/-- `dto.ReportAttemptRequest` bound by this handler (no worker name field). -/
structure ReportAttemptRequest where
  attempt : Int
  status : String
  startedAt : Int
  finishedAt : Option Int := none
  error : String := ""
  traceID : String := ""
  spanID : String := ""
  deriving Repr, DecidableEq

def reportAttempt (st : ServerState) (taskID : String)
    (req : ReportAttemptRequest) : Except HError Unit × ServerState :=
  match getTaskRow st.tasks taskID with
  | none => (.error (.notFound "task 不存在"), st)
  | some task =>
    if req.status ≠ "running" && req.status ≠ "success" && req.status ≠ "fail" then
      (.error (.badRequest "status 必须是 running/success/fail"), st)
    else
      -- for the three admitted strings, `string(attemptStatus) = req.status`
      let row : Attempt :=
        { taskID := taskID, attempt := req.attempt, status := req.status,
          startedAt := req.startedAt, finishedAt := req.finishedAt,
          error := req.error, traceID := req.traceID, spanID := req.spanID }
      let st1 := { st with attempts := st.attempts ++ [row] }
      if req.status = "success" || req.status = "fail" then
        let task1 := { task with status := req.status, lastAttempt := req.attempt }
        (.ok (), { st1 with tasks := upsertTaskRow st1.tasks task1 })
      else
        (.ok (), st1)

/-! ## `TaskHandler.BatchRetry` -/

/-- `dto.BatchRetryRequest`. -/
structure BatchRetryRequest where
  workerName : String := ""
  status : String := ""
  taskIDs : List String := []
  limit : Int := 0
  deriving Repr, DecidableEq

/-- `dto.BatchRetryResponse`: its only fields are a status string, the retried
    count, and the new task ids (no failed-candidate field exists). -/
structure BatchRetryResponse where
  status : String
  totalRetried : Nat
  newTaskIDs : List String
  deriving Repr, DecidableEq

/-- `TaskRepo.ListTasks` read path as used by `BatchRetry` candidate
    resolution (the `created_at DESC` ordering of the store is abstracted to
    the table's own order, which no claim depends on). -/
def listTasksRows (tbl : TaskTable) (workerName status queue : String)
    (limit : Int) : List Task :=
  let lim : Int := if limit ≤ 0 || limit > 200 then 50 else limit
  ((tbl.map (fun kv => kv.2)).filter (fun t =>
      (workerName = "" || t.workerName = workerName) &&
      (status = "" || t.status = status) &&
      (queue = "" || t.queue = queue))).take lim.toNat

/-- The per-candidate loop of `BatchRetry`.  `k` counts the broker calls made
    so far in this request: the `gens` stream resolves the `NewTaskID` calls
    and the `accepts` oracle resolves the corresponding `Enqueue` outcomes
    (both are reached exactly when the task lookup and the worker-config
    lookup succeed). -/
def batchLoop (gens : Nat → String) (accepts : Nat → Bool) :
    List String → ServerState → Nat → List String → ServerState × List String
  | [], st, _, acc => (st, acc)
  | oldID :: rest, st, k, acc =>
    match getTaskRow st.tasks oldID with
    | none => batchLoop gens accepts rest st k acc
    | some t =>
      match st.workers t.workerName with
      | none => batchLoop gens accepts rest st k acc
      | some cfg =>
        let newID := gens k
        let p : EnqueueParams :=
          { taskType := t.queue, taskKey := newID, queue := t.queue,
            maxRetry := cfg.defaultRetryCount,
            timeoutSeconds := cfg.defaultTimeout,
            payload := t.payload }
        let sub : Submission :=
          { taskType := t.queue, msgID := newID, msgTaskID := newID,
            msgPayload := t.payload, opts := enqueueOptions p }
        let st1 := { st with brokerCalls := st.brokerCalls ++ [sub] }
        if accepts k then
          let row : Task :=
            { taskID := newID, workerName := t.workerName, queue := t.queue,
              priority := t.priority, payload := t.payload, status := "pending",
              lastAttempt := 0 }
          batchLoop gens accepts rest
            { st1 with tasks := upsertTaskRow st1.tasks row } (k + 1) (acc ++ [newID])
        else
          batchLoop gens accepts rest st1 (k + 1) acc

def batchRetry (gens : Nat → String) (accepts : Nat → Bool) (st : ServerState)
    (req : BatchRetryRequest) : Except HError BatchRetryResponse × ServerState :=
  let lim : Int := if req.limit ≤ 0 || req.limit > 1000 then 100 else req.limit
  let taskIDs :=
    if req.taskIDs ≠ [] then req.taskIDs
    else (listTasksRows st.tasks req.workerName req.status "" lim).map
      (fun t => t.taskID)
  let (st1, newTaskIDs) := batchLoop gens accepts taskIDs st 0 []
  (.ok { status := "ok", totalRetried := newTaskIDs.length,
         newTaskIDs := newTaskIDs }, st1)

/-! ## `sdk.ReportWithRetry` (sdk/reliability.go)

Durations are in nanoseconds.  The Go code computes the next backoff as
`time.Duration(float64(backoff) * config.BackoffFactor)`: for the default
factor `2.0`, and for every duration at most `MaxBackoff = 30s < 2^53 ns`,
the float64 product is exact and the `time.Duration` conversion truncates
nothing, so the rational model below coincides with the Go arithmetic on the
default configuration.  `callErr n` is the outcome of the `n`-th (0-based)
`reporter.ReportAttempt` call (`none` = success); `cancelled n` says whether
the caller's context is cancelled during the wait preceding the `n`-th call. -/

/-- `sdk.ReportRetryConfig`.  The float64 `BackoffFactor` is represented as
    the exact rational `backoffFactorNum / backoffFactorDen`; for the default
    factor `2.0` and every duration at most `MaxBackoff < 2^53 ns` the
    float64 product is exact, so the rational model coincides with the Go
    arithmetic. -/
structure ReportRetryConfig where
  maxRetries : Nat
  initialBackoff : Nat
  maxBackoff : Nat
  backoffFactorNum : Nat
  backoffFactorDen : Nat
  deriving Repr, DecidableEq

/-- `sdk.DefaultReportRetryConfig()`: 3 retries, 1s initial, 30s cap, factor 2.0. -/
def defaultReportRetryConfig : ReportRetryConfig :=
  { maxRetries := 3, initialBackoff := 1000000000,
    maxBackoff := 30000000000, backoffFactorNum := 2, backoffFactorDen := 1 }

/-- One backoff update: multiply by the factor (truncating toward zero, as
    the `time.Duration` conversion does), then cap at `MaxBackoff`. -/
def nextBackoff (cfg : ReportRetryConfig) (b : Nat) : Nat :=
  let x := b * cfg.backoffFactorNum / cfg.backoffFactorDen
  if x > cfg.maxBackoff then cfg.maxBackoff else x

/-- The backoff value in force before the `n`-th wait (0-based):
    `InitialBackoff`, then repeatedly updated by `nextBackoff`. -/
def backoffSeq (cfg : ReportRetryConfig) : Nat → Nat
  | 0 => cfg.initialBackoff
  | n + 1 => nextBackoff cfg (backoffSeq cfg n)

/-- Observable outcome of a `ReportWithRetry` run: how it returned, how many
    report calls were made, and the sequence of completed waits. -/
inductive ReportOutcome where
  | success (callsMade : Nat) (waits : List Nat)
  | ctxCancelled (callsMade : Nat) (waits : List Nat)
  | exhausted (errMsg : String) (callsMade : Nat) (waits : List Nat)
  deriving Repr, DecidableEq

/-- Number of `reporter.ReportAttempt` calls the run performed. -/
def ReportOutcome.calls : ReportOutcome → Nat
  | .success n _ => n
  | .ctxCancelled n _ => n
  | .exhausted _ n _ => n

/-- The completed waits of the run, in order. -/
def ReportOutcome.waits : ReportOutcome → List Nat
  | .success _ w => w
  | .ctxCancelled _ w => w
  | .exhausted _ _ w => w

/-- The `for attempt := 0; attempt <= MaxRetries` loop body; the first
    argument is the number of loop iterations still allowed. -/
def reportLoop (cfg : ReportRetryConfig) (callErr : Nat → Option String)
    (cancelled : Nat → Bool) :
    Nat → Nat → Nat → String → List Nat → ReportOutcome
  | 0, attempt, _, lastErr, waits =>
    .exhausted ("上报失败，已达最大重试次数: " ++ lastErr) attempt waits
  | remaining + 1, attempt, backoff, _lastErr, waits =>
    if attempt > 0 then
      if cancelled attempt then .ctxCancelled attempt waits
      else
        let waits2 := waits ++ [backoff]
        let backoff2 := nextBackoff cfg backoff
        match callErr attempt with
        | none => .success (attempt + 1) waits2
        | some e => reportLoop cfg callErr cancelled remaining (attempt + 1) backoff2 e waits2
    else
      match callErr attempt with
      | none => .success (attempt + 1) waits
      | some e => reportLoop cfg callErr cancelled remaining (attempt + 1) backoff e waits

/-- `sdk.ReportWithRetry`, with the reporter and the context resolved by the
    `callErr` / `cancelled` oracles. -/
def reportWithRetry (cfg : ReportRetryConfig) (callErr : Nat → Option String)
    (cancelled : Nat → Bool) : ReportOutcome :=
  reportLoop cfg callErr cancelled (cfg.maxRetries + 1) 0 cfg.initialBackoff "" []

/-! # Theorems -/

/-! ## Worker registry (`Store.Upsert`) -/

theorem fixGroups_eq_ok (l : List QueueGroupConfig) (h : ∀ qg ∈ l, qg.name ≠ "") :
    fixGroups l = .ok (l.map fixGroup) := by
  induction l with
  | nil => rfl
  | cons qg rest ih =>
    have hqg : qg.name ≠ "" := h qg (List.mem_cons_self _ _)
    have hrest : ∀ g ∈ rest, g.name ≠ "" := fun g hg => h g (List.mem_cons_of_mem _ hg)
    simp [fixGroups, hqg, ih hrest, Except.map]

theorem fixGroups_error_of_mem (l : List QueueGroupConfig)
    (h : ∃ qg ∈ l, qg.name = "") : ∃ e, fixGroups l = .error e := by
  induction l with
  | nil => simp at h
  | cons qg rest ih =>
    by_cases hqg : qg.name = ""
    · exact ⟨"queue_group name 不能为空", by simp [fixGroups, hqg]⟩
    · obtain ⟨g, hg, hname⟩ := h
      rcases List.mem_cons.mp hg with rfl | hgrest
      · exact absurd hname hqg
      · obtain ⟨e, he⟩ := ih ⟨g, hgrest, hname⟩
        exact ⟨e, by simp [fixGroups, hqg, he, Except.map]⟩

theorem fixGroups_ok_elim (l : List QueueGroupConfig) (gs : List QueueGroupConfig)
    (h : fixGroups l = .ok gs) : gs = l.map fixGroup := by
  induction l generalizing gs with
  | nil => simpa [fixGroups] using h.symm
  | cons qg rest ih =>
    by_cases hqg : qg.name = ""
    · simp [fixGroups, hqg] at h
    · simp only [fixGroups, hqg, if_false] at h
      cases hrest : fixGroups rest with
      | error e => rw [hrest] at h; simp [Except.map] at h
      | ok gs2 =>
        rw [hrest] at h
        simp only [Except.map, Except.ok.injEq] at h
        subst h
        simp [ih gs2 hrest]

/-- C1: `Store.Upsert` fails with a validation error exactly when the trimmed
    worker name is empty, the queue-group list is empty, or some group name is
    empty; on success every group with an empty priorities map gets exactly
    `{critical: 50, default: 30, low: 10}`, non-positive concurrency becomes
    10, non-positive retry/timeout defaults become 3/30, negative delay
    becomes 0, and the stored row for that worker name is fully replaced. -/
theorem upsert_validates_and_defaults (items : WorkerMap) (c : Config) :
    ((∃ e, Store.upsert items c = .error e) ↔
      (trimSpace c.workerName = "" ∨ c.queueGroups = [] ∨ ∃ qg ∈ c.queueGroups, qg.name = ""))
    ∧ (∀ c2 items2, Store.upsert items c = .ok (c2, items2) →
        List.Forall₂ (fun qg qg2 =>
            qg2.name = qg.name
            ∧ (qg.priorities = [] →
                qg2.priorities = [("critical", 50), ("default", 30), ("low", 10)])
            ∧ (qg.priorities ≠ [] → qg2.priorities = qg.priorities)
            ∧ (qg.concurrency ≤ 0 → qg2.concurrency = 10)
            ∧ (0 < qg.concurrency → qg2.concurrency = qg.concurrency))
          c.queueGroups c2.queueGroups
        ∧ (c.defaultRetryCount ≤ 0 → c2.defaultRetryCount = 3)
        ∧ (c.defaultTimeout ≤ 0 → c2.defaultTimeout = 30)
        ∧ (c.defaultDelay < 0 → c2.defaultDelay = 0)
        ∧ items2 (trimSpace c.workerName) = some c2
        ∧ (∀ k, k ≠ trimSpace c.workerName → items2 k = items k)) := by
  constructor
  · by_cases htrim : trimSpace c.workerName = ""
    · refine ⟨fun _ => Or.inl htrim, fun _ => ⟨"worker_name 不能为空", ?_⟩⟩
      simp [Store.upsert, htrim]
    · by_cases hqgs : c.queueGroups = []
      · refine ⟨fun _ => Or.inr (Or.inl hqgs), fun _ => ⟨"queue_groups 不能为空", ?_⟩⟩
        simp [Store.upsert, htrim, hqgs]
      · by_cases hmem : ∃ qg ∈ c.queueGroups, qg.name = ""
        · obtain ⟨e, he⟩ := fixGroups_error_of_mem _ hmem
          simp only [Store.upsert, if_neg htrim, if_neg hqgs, he]
          exact ⟨fun _ => Or.inr (Or.inr hmem), fun _ => ⟨e, rfl⟩⟩
        · have hok := fixGroups_eq_ok c.queueGroups (by
            intro qg hqg hname
            exact hmem ⟨qg, hqg, hname⟩)
          simp only [Store.upsert, if_neg htrim, if_neg hqgs, hok]
          constructor
          · rintro ⟨e, he⟩
            exact absurd he (by simp)
          · rintro (h | h | h)
            · exact absurd h htrim
            · exact absurd h hqgs
            · exact absurd h hmem
  · intro c2 items2 h
    by_cases htrim : trimSpace c.workerName = ""
    · simp [Store.upsert, htrim] at h
    · by_cases hqgs : c.queueGroups = []
      · simp [Store.upsert, htrim, hqgs] at h
      · cases hfix : fixGroups c.queueGroups with
        | error e => simp [Store.upsert, htrim, hqgs, hfix] at h
        | ok gs =>
          have hgs := fixGroups_ok_elim _ _ hfix
          simp only [Store.upsert, if_neg htrim, if_neg hqgs, hfix,
            Except.ok.injEq, Prod.mk.injEq] at h
          obtain ⟨hc2, hitems2⟩ := h
          subst hgs
          refine ⟨?_, ?_, ?_, ?_, ?_, ?_⟩
          · rw [← hc2]
            rw [List.forall₂_map_right_iff, List.forall₂_same]
            intro qg _
            refine ⟨by simp [fixGroup], ?_, ?_, ?_, ?_⟩
            · intro hp; simp [fixGroup, hp, defaultPriorities]
            · intro hp; simp [fixGroup, hp]
            · intro hcon; simp [fixGroup, hcon]
            · intro hcon; simp [fixGroup, not_le.mpr hcon]
          · intro hle; rw [← hc2]; simp [if_pos hle]
          · intro hle; rw [← hc2]; simp [if_pos hle]
          · intro hlt; rw [← hc2]; simp [if_pos hlt]
          · rw [← hitems2]; simpa using hc2
          · intro k hk; rw [← hitems2]; simp [if_neg hk]

/-- A concrete registration: padded name, one group with no priorities and
    non-positive concurrency, non-positive defaults. -/
def cDemo : Config :=
  { workerName := " w1 ",
    queueGroups := [{ name := "jobs", concurrency := 0, priorities := [] }],
    defaultRetryCount := 0, defaultTimeout := -5, defaultDelay := -1,
    isEnabled := true }

/-- What `Store.Upsert` stores for `cDemo`. -/
def cFix : Config :=
  { workerName := "w1",
    queueGroups := [{ name := "jobs", concurrency := 10,
                      priorities := [("critical", 50), ("default", 30), ("low", 10)] }],
    defaultRetryCount := 3, defaultTimeout := 30, defaultDelay := 0,
    isEnabled := true }

/-- The registry map after upserting `cDemo` into an empty registry. -/
def itemsFix : WorkerMap := fun k => if k = trimSpace " w1 " then some cFix else none

theorem upsert_v_and_d_witness :
    cFix.defaultRetryCount = 3 ∧ cFix.defaultTimeout = 30 ∧ cFix.defaultDelay = 0
    ∧ itemsFix (trimSpace " w1 ") = some cFix ∧ itemsFix "zz" = none := by
  have h := (upsert_validates_and_defaults (fun _ => none) cDemo).2 cFix itemsFix rfl
  exact ⟨h.2.1 (by decide), h.2.2.1 (by decide), h.2.2.2.1 (by decide),
    h.2.2.2.2.1, h.2.2.2.2.2 "zz" (by decide)⟩

/-! ## Task-table lemmas -/

theorem find?_map_replace (tbl : TaskTable) (t : Task) :
    List.find? (fun kv => kv.1 = t.taskID)
      (tbl.map (fun kv => if kv.1 = t.taskID then (t.taskID, t) else kv)) =
    (List.find? (fun kv => kv.1 = t.taskID) tbl).map (fun _ => (t.taskID, t)) := by
  induction tbl with
  | nil => rfl
  | cons kv rest ih =>
    by_cases hk : kv.1 = t.taskID
    · have hd1 : (decide ((t.taskID, t).1 = t.taskID)) = true := by simp
      have hd2 : (decide (kv.1 = t.taskID)) = true := by simpa using hk
      simp [List.find?_cons, if_pos hk, hd1, hd2]
    · have hd : (decide (kv.1 = t.taskID)) = false := by simpa using hk
      simp only [List.map_cons, if_neg hk, List.find?_cons, hd]
      exact ih

theorem find?_map_replace_other (tbl : TaskTable) (t : Task) (j : String)
    (hj : j ≠ t.taskID) :
    List.find? (fun kv => kv.1 = j)
      (tbl.map (fun kv => if kv.1 = t.taskID then (t.taskID, t) else kv)) =
    List.find? (fun kv => kv.1 = j) tbl := by
  induction tbl with
  | nil => rfl
  | cons kv rest ih =>
    by_cases hk : kv.1 = t.taskID
    · have h1 : (decide ((t.taskID, t).1 = j)) = false := by
        simp only [decide_eq_false_iff_not]
        exact fun h => hj h.symm
      have h2 : (decide (kv.1 = j)) = false := by
        simp only [decide_eq_false_iff_not]
        rw [hk]; exact fun h => hj h.symm
      simp only [List.map_cons, if_pos hk, List.find?_cons, h1, h2]
      exact ih
    · simp only [List.map_cons, if_neg hk, List.find?_cons]
      cases hp : (decide (kv.1 = j)) with
      | true => rfl
      | false => exact ih

theorem getTaskRow_upsert_self (tbl : TaskTable) (t : Task) :
    getTaskRow (upsertTaskRow tbl t) t.taskID = some t := by
  unfold upsertTaskRow getTaskRow
  by_cases hfind : (List.find? (fun kv => kv.1 = t.taskID) tbl).isSome
  · rw [if_pos hfind, find?_map_replace]
    cases hkv : List.find? (fun kv => kv.1 = t.taskID) tbl with
    | none => rw [hkv] at hfind; simp at hfind
    | some kv => rfl
  · rw [if_neg hfind, List.find?_append]
    rw [Option.not_isSome_iff_eq_none] at hfind
    simp [hfind, List.find?_cons]

theorem getTaskRow_upsert_other (tbl : TaskTable) (t : Task) (j : String)
    (hj : j ≠ t.taskID) :
    getTaskRow (upsertTaskRow tbl t) j = getTaskRow tbl j := by
  unfold upsertTaskRow getTaskRow
  by_cases hfind : (List.find? (fun kv => kv.1 = t.taskID) tbl).isSome
  · rw [if_pos hfind, find?_map_replace_other tbl t j hj]
  · rw [if_neg hfind, List.find?_append]
    have hone : List.find? (fun kv => kv.1 = j) [(t.taskID, t)] = none := by
      have hd : (decide ((t.taskID, t).1 = j)) = false := by
        simp only [decide_eq_false_iff_not]
        exact fun h => hj h.symm
      simp [List.find?_cons, hd]
    rw [hone]
    cases List.find? (fun kv => kv.1 = j) tbl <;> rfl

/-! ## Replay (`TaskHandler.ReplayTask`) -/

/-- C2: replaying a terminal task whose worker config exists returns the
    freshly minted id (distinct from the source id), creates a new pending
    Task row with the source's payload, queue and worker name and
    `last_attempt = 0`, and leaves the original row unchanged.  The mint
    `gen` resolves `asynqx.NewTaskID` (16 random bytes, so `gen ≠ tid` up to
    a negligible collision), and the broker accepts the submission. -/
theorem replay_preserves_payload_mints_new_identity
    (st : ServerState) (tid gen : String) (t : Task) (cfg : Config)
    (req : ReplayTaskRequest)
    (ht : getTaskRow st.tasks tid = some t)
    (hterm : t.status = "success" ∨ t.status = "fail")
    (hcfg : st.workers t.workerName = some cfg)
    (hfresh : gen ≠ tid) :
    ∃ st2, replayTask gen true st tid req
        = (.ok { status := "replayed", newTaskID := gen }, st2)
      ∧ gen ≠ tid
      ∧ getTaskRow st2.tasks gen = some
          { taskID := gen, workerName := t.workerName, queue := t.queue,
            priority := t.priority, payload := t.payload,
            status := "pending", lastAttempt := 0 }
      ∧ getTaskRow st2.tasks tid = some t := by
  have hcond : (decide (t.status ≠ "success") && decide (t.status ≠ "fail")) = false := by
    rcases hterm with h | h <;> simp [h]
  simp only [replayTask, ht, hcond, hcfg, Bool.false_eq_true, if_false,
    Bool.not_true]
  refine ⟨_, rfl, hfresh, ?_, ?_⟩
  · exact getTaskRow_upsert_self _ _
  · rw [getTaskRow_upsert_other _ _ _ (Ne.symm hfresh), ht]

/-- C3: replaying a pending/running task is rejected with a 400-class
    invalid-state error and the state is untouched (no new Task row, no
    broker call); replaying an unknown id yields the 404 not-found error. -/
theorem replay_rejects_nonterminal_and_unknown
    (st : ServerState) (tid gen : String) (accepts : Bool)
    (req : ReplayTaskRequest) :
    (∀ t, getTaskRow st.tasks tid = some t →
        (t.status = "pending" ∨ t.status = "running") →
        replayTask gen accepts st tid req
          = (.error (.badRequest "只能重放已结束的任务（success/fail）"), st))
    ∧ (getTaskRow st.tasks tid = none →
        replayTask gen accepts st tid req
          = (.error (.notFound "task 不存在"), st)) := by
  constructor
  · intro t ht hstat
    have hcond : (decide (t.status ≠ "success") && decide (t.status ≠ "fail")) = true := by
      rcases hstat with h | h <;> simp [h]
    simp only [replayTask, ht, hcond, if_true]
  · intro h
    simp only [replayTask, h]

/-- A demo worker config for the handler scenarios. -/
def wDemo : Config :=
  { workerName := "w1",
    queueGroups := [{ name := "jobs", concurrency := 5,
                      priorities := defaultPriorities }],
    defaultRetryCount := 3, defaultTimeout := 30, defaultDelay := 0,
    isEnabled := true }

/-- A registry holding just `wDemo`. -/
def workersDemo : WorkerMap := fun k => if k = "w1" then some wDemo else none

/-- A terminal (successful) task of `wDemo`. -/
def tDemo : Task :=
  { taskID := "t-1", workerName := "w1", queue := "w1:jobs", priority := 0,
    payload := "p1", status := "success", lastAttempt := 1,
    lastError := "", lastWorkerName := "w1", traceID := "" }

/-- Demo server state: one worker, one terminal task. -/
def stDemo : ServerState :=
  { workers := workersDemo, tasks := [("t-1", tDemo)],
    attempts := [], brokerCalls := [] }

/-- A fresh 32-hex mint for the demo replay. -/
def genDemo : String := newTaskID [0, 0, 0, 0, 0, 0, 0, 0, 0, 0, 0, 0, 0, 0, 0, 1]

theorem replay_preserves_witness :
    (replayTask genDemo true stDemo "t-1" { delay := 0 }).1
      = .ok { status := "replayed", newTaskID := genDemo }
    ∧ getTaskRow (replayTask genDemo true stDemo "t-1" { delay := 0 }).2.tasks genDemo
      = some { taskID := genDemo, workerName := "w1", queue := "w1:jobs",
               priority := 0, payload := "p1", status := "pending",
               lastAttempt := 0 }
    ∧ getTaskRow (replayTask genDemo true stDemo "t-1" { delay := 0 }).2.tasks "t-1"
      = some tDemo := by
  obtain ⟨st2, heq, _, hnew, hold⟩ :=
    replay_preserves_payload_mints_new_identity stDemo "t-1" genDemo tDemo wDemo
      { delay := 0 } (by decide) (Or.inl (by decide)) rfl (by decide)
  rw [heq]
  exact ⟨rfl, hnew, hold⟩

/-- A pending task of `wDemo` in an otherwise identical state. -/
def tPendingDemo : Task :=
  { taskID := "t-2", workerName := "w1", queue := "w1:jobs", priority := 0,
    payload := "p2", status := "pending", lastAttempt := 0 }

/-- Demo state holding only the pending task. -/
def stPendingDemo : ServerState :=
  { workers := workersDemo, tasks := [("t-2", tPendingDemo)],
    attempts := [], brokerCalls := [] }

theorem replay_rejects_witness :
    replayTask genDemo true stPendingDemo "t-2" { delay := 0 }
      = (.error (.badRequest "只能重放已结束的任务（success/fail）"), stPendingDemo)
    ∧ replayTask genDemo true stPendingDemo "missing" { delay := 0 }
      = (.error (.notFound "task 不存在"), stPendingDemo) := by
  refine ⟨?_, ?_⟩
  · exact (replay_rejects_nonterminal_and_unknown stPendingDemo "t-2" genDemo true
      { delay := 0 }).1 tPendingDemo (by decide) (Or.inl (by decide))
  · exact (replay_rejects_nonterminal_and_unknown stPendingDemo "missing" genDemo true
      { delay := 0 }).2 (by decide)

/-! ## Attempt reporting (`TaskHandler.ReportAttempt`) -/

/-- A running task with a recorded previous error and worker name. -/
def tC4 : Task :=
  { taskID := "t-4", workerName := "w1", queue := "w1:jobs", payload := "p4",
    status := "running", lastAttempt := 1, lastError := "boom-1",
    lastWorkerName := "worker-A" }

/-- Demo state for the attempt-report scenarios. -/
def stC4 : ServerState :=
  { workers := workersDemo, tasks := [("t-4", tC4)],
    attempts := [], brokerCalls := [] }

/-- A terminal `fail` report carrying a fresh error message. -/
def reqC4 : ReportAttemptRequest :=
  { attempt := 2, status := "fail", startedAt := 100, finishedAt := some 200,
    error := "boom-2" }

/-- Counterexample to C4 as stated: after the accepted terminal report
    `reqC4` (whose error is "boom-2"), the Task row's `last_error` still
    holds the previous value "boom-1" and `last_worker_name` still holds
    "worker-A" — the handler copies only `status` and `last_attempt` from
    the report (the request body carries no worker name at all). -/
theorem report_attempt_cex :
    (reportAttempt stC4 "t-4" reqC4).1 = .ok ()
    ∧ reqC4.error = "boom-2"
    ∧ Option.map Task.lastError
        (getTaskRow (reportAttempt stC4 "t-4" reqC4).2.tasks "t-4") = some "boom-1"
    ∧ Option.map Task.lastWorkerName
        (getTaskRow (reportAttempt stC4 "t-4" reqC4).2.tasks "t-4") = some "worker-A"
    ∧ Option.map Task.status
        (getTaskRow (reportAttempt stC4 "t-4" reqC4).2.tasks "t-4") = some "fail" := by
  refine ⟨rfl, rfl, ?_, ?_, ?_⟩ <;> rfl

/-- C4 (amended): an accepted report against an existing task is appended to
    the attempt log verbatim; iff its status is terminal (`success`/`fail`)
    the Task row is replaced with its status and last_attempt taken from the
    report while every other column (in particular `last_error` and
    `last_worker_name`) keeps its previous value; a `running` report leaves
    the task table untouched.  No broker call is made either way. -/
theorem report_attempt_terminal_updates (st : ServerState) (tid : String)
    (task : Task) (req : ReportAttemptRequest)
    (ht : getTaskRow st.tasks tid = some task)
    (hid : task.taskID = tid)
    (hvalid : req.status = "running" ∨ req.status = "success" ∨ req.status = "fail") :
    ∃ st2, reportAttempt st tid req = (.ok (), st2)
      ∧ st2.attempts = st.attempts ++
          [{ taskID := tid, attempt := req.attempt, status := req.status,
             startedAt := req.startedAt, finishedAt := req.finishedAt,
             error := req.error, traceID := req.traceID, spanID := req.spanID }]
      ∧ ((req.status = "success" ∨ req.status = "fail") →
          getTaskRow st2.tasks tid
            = some { task with status := req.status, lastAttempt := req.attempt })
      ∧ (req.status = "running" → st2.tasks = st.tasks)
      ∧ st2.brokerCalls = st.brokerCalls := by
  subst hid
  have h1 : (decide (req.status ≠ "running") && decide (req.status ≠ "success") &&
      decide (req.status ≠ "fail")) = false := by
    rcases hvalid with h | h | h <;> simp [h]
  rcases hvalid with h | h | h
  · have h2 : (decide (req.status = "success") || decide (req.status = "fail")) = false := by
      simp [h]
    have hrun : reportAttempt st task.taskID req =
        (.ok (), { st with attempts := st.attempts ++
          [{ taskID := task.taskID, attempt := req.attempt, status := req.status,
             startedAt := req.startedAt, finishedAt := req.finishedAt,
             error := req.error, traceID := req.traceID, spanID := req.spanID }] }) := by
      simp only [reportAttempt, ht, h1, h2, Bool.false_eq_true, if_false]
    refine ⟨_, hrun, rfl, ?_, fun _ => rfl, rfl⟩
    intro hc
    rw [h] at hc
    rcases hc with hc | hc <;> exact absurd hc (by decide)
  · have h2 : (decide (req.status = "success") || decide (req.status = "fail")) = true := by
      simp [h]
    have hrun : reportAttempt st task.taskID req =
        (.ok (), { st with
          attempts := st.attempts ++
            [{ taskID := task.taskID, attempt := req.attempt, status := req.status,
               startedAt := req.startedAt, finishedAt := req.finishedAt,
               error := req.error, traceID := req.traceID, spanID := req.spanID }],
          tasks := upsertTaskRow st.tasks
            { task with status := req.status, lastAttempt := req.attempt } }) := by
      simp only [reportAttempt, ht, h1, h2, Bool.false_eq_true, if_false, if_true]
    refine ⟨_, hrun, rfl, fun _ => getTaskRow_upsert_self _ _, ?_, rfl⟩
    intro hc
    rw [h] at hc
    exact absurd hc (by decide)
  · have h2 : (decide (req.status = "success") || decide (req.status = "fail")) = true := by
      simp [h]
    have hrun : reportAttempt st task.taskID req =
        (.ok (), { st with
          attempts := st.attempts ++
            [{ taskID := task.taskID, attempt := req.attempt, status := req.status,
               startedAt := req.startedAt, finishedAt := req.finishedAt,
               error := req.error, traceID := req.traceID, spanID := req.spanID }],
          tasks := upsertTaskRow st.tasks
            { task with status := req.status, lastAttempt := req.attempt } }) := by
      simp only [reportAttempt, ht, h1, h2, Bool.false_eq_true, if_false, if_true]
    refine ⟨_, hrun, rfl, fun _ => getTaskRow_upsert_self _ _, ?_, rfl⟩
    intro hc
    rw [h] at hc
    exact absurd hc (by decide)

theorem report_attempt_terminal_witness :
    (reportAttempt stC4 "t-4" reqC4).1 = .ok ()
    ∧ (reportAttempt stC4 "t-4" reqC4).2.attempts =
        [{ taskID := "t-4", attempt := 2, status := "fail", startedAt := 100,
           finishedAt := some 200, error := "boom-2", traceID := "", spanID := "" }]
    ∧ getTaskRow (reportAttempt stC4 "t-4" reqC4).2.tasks "t-4"
      = some { tC4 with status := "fail", lastAttempt := 2 } := by
  obtain ⟨st2, heq, hatt, hterm, _, _⟩ :=
    report_attempt_terminal_updates stC4 "t-4" tC4 reqC4 (by decide) (by decide)
      (Or.inr (Or.inr (by decide)))
  rw [heq]
  exact ⟨rfl, by simpa using hatt, hterm (Or.inr (by decide))⟩

/-! ## Batch retry (`TaskHandler.BatchRetry`) -/

/-- The per-candidate failure predicate, counted against the request's initial
    state: a candidate fails when its task lookup fails, its worker config is
    missing, or the broker rejects its submission (the `k`-th broker call of
    the request). -/
def failCount (st : ServerState) (accepts : Nat → Bool) :
    List String → Nat → Nat
  | [], _ => 0
  | id :: rest, k =>
    match getTaskRow st.tasks id with
    | none => 1 + failCount st accepts rest k
    | some t =>
      match st.workers t.workerName with
      | none => 1 + failCount st accepts rest k
      | some _ => (if accepts k then 0 else 1) + failCount st accepts rest (k + 1)

/-- The `BatchRetry` loop retries exactly the candidates that do not fail:
    its accumulated id list grows by the candidate count minus the failure
    count, provided the minted ids never collide with a pending candidate id
    (crypto-random 32-hex mints against caller-supplied ids). -/
theorem batchLoop_length (st0 : ServerState) (gens : Nat → String)
    (accepts : Nat → Bool) :
    ∀ (ids : List String) (st : ServerState) (k : Nat) (acc : List String),
      st.workers = st0.workers →
      (∀ id ∈ ids, getTaskRow st.tasks id = getTaskRow st0.tasks id) →
      (∀ i id, id ∈ ids → gens i ≠ id) →
      (batchLoop gens accepts ids st k acc).2.length + failCount st0 accepts ids k
        = acc.length + ids.length := by
  intro ids
  induction ids with
  | nil => intro st k acc _ _ _; simp [batchLoop, failCount]
  | cons id rest ih =>
    intro st k acc hw hlook hfresh
    have hid := hlook id (List.mem_cons_self _ _)
    have hfreshr : ∀ i id2, id2 ∈ rest → gens i ≠ id2 :=
      fun i id2 h2 => hfresh i id2 (List.mem_cons_of_mem _ h2)
    have hlookr : ∀ id2 ∈ rest, getTaskRow st.tasks id2 = getTaskRow st0.tasks id2 :=
      fun id2 h2 => hlook id2 (List.mem_cons_of_mem _ h2)
    cases h0 : getTaskRow st0.tasks id with
    | none =>
      have hloop : batchLoop gens accepts (id :: rest) st k acc
          = batchLoop gens accepts rest st k acc := by
        simp only [batchLoop, hid, h0]
      rw [hloop]
      have hfc : failCount st0 accepts (id :: rest) k
          = 1 + failCount st0 accepts rest k := by
        simp only [failCount, h0]
      rw [hfc]
      have := ih st k acc hw hlookr hfreshr
      simp only [List.length_cons]
      omega
    | some t =>
      cases hcfg : st0.workers t.workerName with
      | none =>
        have hloop : batchLoop gens accepts (id :: rest) st k acc
            = batchLoop gens accepts rest st k acc := by
          simp only [batchLoop, hid, h0, hw, hcfg]
        have hfc : failCount st0 accepts (id :: rest) k
            = 1 + failCount st0 accepts rest k := by
          simp only [failCount, h0, hcfg]
        rw [hloop, hfc]
        have := ih st k acc hw hlookr hfreshr
        simp only [List.length_cons]
        omega
      | some cfg =>
        cases hacc : accepts k with
        | false =>
          have hloop : batchLoop gens accepts (id :: rest) st k acc
              = batchLoop gens accepts rest
                  { st with brokerCalls := st.brokerCalls ++
                    [{ taskType := t.queue, msgID := gens k, msgTaskID := gens k,
                       msgPayload := t.payload,
                       opts := enqueueOptions
                         { taskType := t.queue, taskKey := gens k, queue := t.queue,
                           maxRetry := cfg.defaultRetryCount,
                           timeoutSeconds := cfg.defaultTimeout,
                           payload := t.payload } }] } (k + 1) acc := by
            simp only [batchLoop, hid, h0, hw, hcfg, hacc, Bool.false_eq_true, if_false]
          have hfc : failCount st0 accepts (id :: rest) k
              = 1 + failCount st0 accepts rest (k + 1) := by
            simp only [failCount, h0, hcfg, hacc, Bool.false_eq_true, if_false]
          rw [hloop, hfc]
          have hres := ih
            { st with brokerCalls := st.brokerCalls ++
              [{ taskType := t.queue, msgID := gens k, msgTaskID := gens k,
                 msgPayload := t.payload,
                 opts := enqueueOptions
                   { taskType := t.queue, taskKey := gens k, queue := t.queue,
                     maxRetry := cfg.defaultRetryCount,
                     timeoutSeconds := cfg.defaultTimeout,
                     payload := t.payload } }] }
            (k + 1) acc hw hlookr hfreshr
          simp only [List.length_cons]
          omega
        | true =>
          have hloop : batchLoop gens accepts (id :: rest) st k acc
              = batchLoop gens accepts rest
                  { st with
                    brokerCalls := st.brokerCalls ++
                      [{ taskType := t.queue, msgID := gens k, msgTaskID := gens k,
                         msgPayload := t.payload,
                         opts := enqueueOptions
                           { taskType := t.queue, taskKey := gens k, queue := t.queue,
                             maxRetry := cfg.defaultRetryCount,
                             timeoutSeconds := cfg.defaultTimeout,
                             payload := t.payload } }],
                    tasks := upsertTaskRow st.tasks
                      { taskID := gens k, workerName := t.workerName,
                        queue := t.queue, priority := t.priority,
                        payload := t.payload, status := "pending",
                        lastAttempt := 0 } }
                  (k + 1) (acc ++ [gens k]) := by
            simp only [batchLoop, hid, h0, hw, hcfg, hacc, if_true]
          have hfc : failCount st0 accepts (id :: rest) k
              = 0 + failCount st0 accepts rest (k + 1) := by
            simp only [failCount, h0, hcfg, hacc, if_true]
          rw [hloop, hfc]
          have hlookr2 : ∀ id2 ∈ rest,
              getTaskRow (upsertTaskRow st.tasks
                { taskID := gens k, workerName := t.workerName, queue := t.queue,
                  priority := t.priority, payload := t.payload,
                  status := "pending", lastAttempt := 0 }) id2
              = getTaskRow st0.tasks id2 := by
            intro id2 h2
            rw [getTaskRow_upsert_other _ _ _ (Ne.symm (hfreshr k id2 h2))]
            exact hlookr id2 h2
          have hres := ih
            { st with
              brokerCalls := st.brokerCalls ++
                [{ taskType := t.queue, msgID := gens k, msgTaskID := gens k,
                   msgPayload := t.payload,
                   opts := enqueueOptions
                     { taskType := t.queue, taskKey := gens k, queue := t.queue,
                       maxRetry := cfg.defaultRetryCount,
                       timeoutSeconds := cfg.defaultTimeout,
                       payload := t.payload } }],
              tasks := upsertTaskRow st.tasks
                { taskID := gens k, workerName := t.workerName,
                  queue := t.queue, priority := t.priority,
                  payload := t.payload, status := "pending",
                  lastAttempt := 0 } }
            (k + 1) (acc ++ [gens k]) hw hlookr2 hfreshr
          simp only [List.length_cons, List.length_append, List.length_nil] at hres ⊢
          omega

/-- C5 (amended): a `BatchRetry` call over N explicit candidate ids of which
    M fail individually (missing task row, missing worker config, or broker
    rejection) never errors as a whole: it returns 200 with
    `total_retried = N - M` and `len(new_task_ids) = N - M`; the failed
    candidates are skipped silently (see the counterexample: the response has
    no failed-candidate field).  The minted ids are assumed distinct from the
    candidate ids (crypto-random 32-hex tokens). -/
theorem batch_retry_partial_failure_tolerant (st : ServerState)
    (gens : Nat → String) (accepts : Nat → Bool) (ids : List String)
    (hne : ids ≠ [])
    (hfresh : ∀ i id, id ∈ ids → gens i ≠ id) :
    ∃ resp st2,
      batchRetry gens accepts st { taskIDs := ids } = (.ok resp, st2)
      ∧ resp.status = "ok"
      ∧ resp.totalRetried + failCount st accepts ids 0 = ids.length
      ∧ resp.newTaskIDs.length = resp.totalRetried := by
  rcases hloop : batchLoop gens accepts ids st 0 [] with ⟨s2, ns⟩
  have hlen := batchLoop_length st gens accepts ids st 0 []
    rfl (fun _ _ => rfl) hfresh
  rw [hloop] at hlen
  refine ⟨{ status := "ok", totalRetried := ns.length, newTaskIDs := ns }, s2, ?_, rfl, ?_, rfl⟩
  · simp [batchRetry, hne, hloop]
  · simpa using hlen

/-- A second fresh 32-hex mint. -/
def genDemo2 : String := newTaskID [0, 0, 0, 0, 0, 0, 0, 0, 0, 0, 0, 0, 0, 0, 0, 2]

/-- Counterexample to C5 as stated: over candidates `["t-bad", "t-1"]` where
    `"t-bad"` has no task row, the call succeeds with `total_retried = 1`,
    but nothing in the response records the failed candidate: the response
    type's only fields are `status`, `total_retried` and `new_task_ids`
    (there is no `failed_task_ids`), and `"t-bad"` appears nowhere in it. -/
theorem batch_retry_cex :
    (batchRetry (fun _ => genDemo2) (fun _ => true) stDemo
        { taskIDs := ["t-bad", "t-1"] }).1
      = .ok { status := "ok", totalRetried := 1, newTaskIDs := [genDemo2] }
    ∧ "t-bad" ∉ [genDemo2] ∧ "t-bad" ≠ "ok" := by
  refine ⟨rfl, by decide, by decide⟩

theorem batch_retry_partial_witness :
    (Except.toOption (batchRetry (fun _ => genDemo2) (fun _ => true) stDemo
        { taskIDs := ["t-bad", "t-1"] }).1).map BatchRetryResponse.totalRetried
      = some 1
    ∧ failCount stDemo (fun _ => true) ["t-bad", "t-1"] 0 = 1 := by
  obtain ⟨resp, st2, heq, hstat, hcount, hlenr⟩ :=
    batch_retry_partial_failure_tolerant stDemo (fun _ => genDemo2) (fun _ => true)
      ["t-bad", "t-1"] (by decide)
      (by
        intro i id hid
        simp only [List.mem_cons, List.mem_singleton] at hid
        rcases hid with h | h | h
        · subst h; show genDemo2 ≠ "t-bad"; decide
        · subst h; show genDemo2 ≠ "t-1"; decide
        · simp at h)
  have hfc : failCount stDemo (fun _ => true) ["t-bad", "t-1"] 0 = 1 := by decide
  rw [hfc] at hcount
  simp only [List.length_cons, List.length_nil] at hcount
  refine ⟨?_, hfc⟩
  rw [heq]
  have hr : resp.totalRetried = 1 := by omega
  simp [Except.toOption, hr]

/-! ## CreateTask validation boundary -/

/-- Either `CreateTask` rejects with a 400-class error leaving the state
    (hence the broker-call log) untouched, or every validation and routing
    check passed. -/
theorem createTask_cases (gen : String) (accepts : Bool) (st : ServerState)
    (req : CreateTaskRequest) :
    (∃ e, createTask gen accepts st req = (.error (.badRequest e), st))
    ∨ (validateWorkerName req.workerName = true
       ∧ validateQueueName req.queue = true
       ∧ (req.taskID = "" ∨ validateTaskID req.taskID = true)
       ∧ req.payload.utf8ByteSize ≤ maxPayloadSize
       ∧ ∃ cfg, st.workers req.workerName = some cfg ∧ cfg.isEnabled = true
           ∧ Store.hasQueue st.workers req.workerName req.queue = true) := by
  by_cases h1 : validateWorkerName req.workerName = true
  case neg =>
    have h1f : validateWorkerName req.workerName = false := by simpa using h1
    exact Or.inl ⟨"worker_name 格式无效", by simp [createTask, h1f]⟩
  by_cases h2 : validateQueueName req.queue = true
  case neg =>
    have h2f : validateQueueName req.queue = false := by simpa using h2
    exact Or.inl ⟨"queue 格式无效", by simp [createTask, h1, h2f]⟩
  by_cases h3a : req.taskID = ""
  case neg =>
    by_cases h3b : validateTaskID req.taskID = true
    case neg =>
      have h3f : validateTaskID req.taskID = false := by simpa using h3b
      exact Or.inl ⟨"task_id 格式无效", by simp [createTask, h1, h2, h3a, h3f]⟩
    by_cases h4 : req.payload.utf8ByteSize > maxPayloadSize
    case pos =>
      exact Or.inl ⟨"payload 过大，最大 2MB", by simp [createTask, h1, h2, h3a, h3b, h4]⟩
    cases hw : st.workers req.workerName with
    | none =>
      exact Or.inl ⟨"worker 不存在", by simp [createTask, h1, h2, h3a, h3b, h4, hw]⟩
    | some cfg =>
      by_cases h6 : cfg.isEnabled = true
      case neg =>
        have h6f : cfg.isEnabled = false := by simpa using h6
        exact Or.inl ⟨"worker 未启用", by simp [createTask, h1, h2, h3a, h3b, h4, hw, h6f]⟩
      by_cases h7 : Store.hasQueue st.workers req.workerName req.queue = true
      case neg =>
        have h7f : Store.hasQueue st.workers req.workerName req.queue = false := by
          simpa using h7
        exact Or.inl ⟨"队列不存在于 worker 配置中",
          by simp [createTask, h1, h2, h3a, h3b, h4, hw, h6, h7f]⟩
      exact Or.inr ⟨h1, h2, Or.inr h3b, le_of_not_lt h4, cfg, rfl, h6, h7⟩
  -- taskID empty: the task_id format check is skipped
  by_cases h4 : req.payload.utf8ByteSize > maxPayloadSize
  case pos =>
    exact Or.inl ⟨"payload 过大，最大 2MB", by simp [createTask, h1, h2, h3a, h4]⟩
  cases hw : st.workers req.workerName with
  | none =>
    exact Or.inl ⟨"worker 不存在", by simp [createTask, h1, h2, h3a, h4, hw]⟩
  | some cfg =>
    by_cases h6 : cfg.isEnabled = true
    case neg =>
      have h6f : cfg.isEnabled = false := by simpa using h6
      exact Or.inl ⟨"worker 未启用", by simp [createTask, h1, h2, h3a, h4, hw, h6f]⟩
    by_cases h7 : Store.hasQueue st.workers req.workerName req.queue = true
    case neg =>
      have h7f : Store.hasQueue st.workers req.workerName req.queue = false := by
        simpa using h7
      exact Or.inl ⟨"队列不存在于 worker 配置中",
        by simp [createTask, h1, h2, h3a, h4, hw, h6, h7f]⟩
    exact Or.inr ⟨h1, h2, Or.inl h3a, le_of_not_lt h4, cfg, rfl, h6, h7⟩

/-- C6: every `CreateTask` request failing a validation or routing check
    (bad worker name, bad queue name, bad task id, oversized payload, unknown
    worker, disabled worker, undeclared queue group) is rejected with a
    400-class error and the server state — including the broker-call log — is
    left untouched: no broker submission ever occurs. -/
theorem create_task_validation_never_reaches_broker (gen : String)
    (accepts : Bool) (st : ServerState) (req : CreateTaskRequest)
    (hbad :
      validateWorkerName req.workerName = false
      ∨ validateQueueName req.queue = false
      ∨ (req.taskID ≠ "" ∧ validateTaskID req.taskID = false)
      ∨ req.payload.utf8ByteSize > maxPayloadSize
      ∨ st.workers req.workerName = none
      ∨ (∃ cfg, st.workers req.workerName = some cfg ∧ cfg.isEnabled = false)
      ∨ Store.hasQueue st.workers req.workerName req.queue = false) :
    ∃ e, createTask gen accepts st req = (.error (.badRequest e), st) := by
  rcases createTask_cases gen accepts st req with h | hpos
  · exact h
  · exfalso
    obtain ⟨p1, p2, p3, p4, cfg, hw, p6, p7⟩ := hpos
    rcases hbad with h | h | h | h | h | h | h
    · rw [p1] at h; cases h
    · rw [p2] at h; cases h
    · rcases p3 with p3 | p3
      · exact h.1 p3
      · rw [p3] at h; cases h.2
    · exact absurd h (not_lt.mpr p4)
    · rw [hw] at h; cases h
    · obtain ⟨cfg2, hw2, hdis⟩ := h
      rw [hw] at hw2
      cases hw2
      rw [p6] at hdis; cases hdis
    · rw [p7] at h; cases h

/-- The spec's concrete scenario: a 2-character worker name. -/
def reqAb : CreateTaskRequest :=
  { workerName := "ab", queue := "jobs", payload := "p" }

theorem create_task_validation_witness :
    (createTask genDemo true stDemo reqAb).2 = stDemo
    ∧ (createTask genDemo true stDemo reqAb).2.brokerCalls = []
    ∧ validateWorkerName "ab" = false := by
  obtain ⟨e, he⟩ :=
    create_task_validation_never_reaches_broker genDemo true stDemo reqAb
      (Or.inl (by decide))
  exact ⟨by rw [he], by rw [he]; rfl, by decide⟩

/-! ## Idempotency directive (`asynqx.EnqueueOptions` / `CreateTask`) -/

theorem newTaskID_ne_empty (bytes : List Nat) (h : bytes.length = 16) :
    newTaskID bytes ≠ "" := by
  cases bytes with
  | nil => simp at h
  | cons b rest =>
    intro hcontra
    have hdata := congrArg String.data hcontra
    simp [newTaskID, hexBytePair] at hdata

theorem unique_mem_enqueueOptions (p : EnqueueParams) (h : p.taskKey ≠ "") :
    AsynqOption.unique 24 ∈ enqueueOptions p := by
  unfold enqueueOptions
  simp [h]

theorem no_unique_of_empty_key (p : EnqueueParams) (h : p.taskKey = "") (w : Int) :
    AsynqOption.unique w ∉ enqueueOptions p := by
  unfold enqueueOptions
  intro hmem
  have hkeynil : (if p.taskKey = "" then ([] : List AsynqOption)
      else [AsynqOption.unique 24]) = [] := by rw [if_pos h]
  simp only [List.mem_append, hkeynil, List.not_mem_nil, or_false] at hmem
  rcases hmem with (((hm | hm) | hm) | hm) | hm <;>
    split at hm <;> simp_all

/-- C7: every broker submission made by a successful `CreateTask` carries the
    idempotency directive `Unique(24h)` (its task key is the request's task
    id, which is always non-empty: caller-supplied ids are non-empty by the
    task-id regex and generated ids are 32 hex chars); a submission whose
    task key is empty carries no uniqueness directive at all. -/
theorem create_task_unique_directive :
    (∀ bytes : List Nat, bytes.length = 16 → newTaskID bytes ≠ "")
    ∧ (∀ p : EnqueueParams, p.taskKey = "" →
        ∀ w : Int, AsynqOption.unique w ∉ enqueueOptions p)
    ∧ (∀ (gen : String) (accepts : Bool) (st : ServerState)
        (req : CreateTaskRequest) (resp : CreateTaskResponse) (st2 : ServerState),
        gen ≠ "" →
        createTask gen accepts st req = (.ok resp, st2) →
        ∃ sub, st2.brokerCalls = st.brokerCalls ++ [sub]
          ∧ AsynqOption.unique 24 ∈ sub.opts) := by
  refine ⟨newTaskID_ne_empty, no_unique_of_empty_key, ?_⟩
  intro gen accepts st req resp st2 hgen h
  rcases createTask_cases gen accepts st req with ⟨e, he⟩ | hpos
  · rw [he] at h
    simp at h
  · obtain ⟨p1, p2, p3, p4, cfg, hw, p6, p7⟩ := hpos
    have hnot3 : ¬(¬req.taskID = "" ∧ validateTaskID req.taskID = false) := by
      rcases p3 with p3 | p3
      · exact fun hc => hc.1 p3
      · intro hc
        rw [p3] at hc
        exact absurd hc.2 (by simp)
    have hnot4 : ¬(maxPayloadSize < req.payload.utf8ByteSize) := not_lt.mpr p4
    have hkey : (if req.taskID = "" then gen else req.taskID) ≠ "" := by
      rcases p3 with p3 | p3
      · rw [if_pos p3]; exact hgen
      · by_cases hc : req.taskID = ""
        · rw [hc] at p3; simp [validateTaskID] at p3
        · rwa [if_neg hc]
    cases accepts with
    | false =>
      simp [createTask, p1, p2, hnot3, hnot4, hw, p6, p7] at h
    | true =>
      simp [createTask, p1, p2, hnot3, hnot4, hw, p6, p7, Prod.mk.injEq] at h
      obtain ⟨hresp, hst2⟩ := h
      subst hst2
      exact ⟨_, rfl, unique_mem_enqueueOptions _ hkey⟩

/-- A worker with a valid (3+ char) name, for successful `CreateTask` runs. -/
def wOk : Config :=
  { workerName := "wrk-1",
    queueGroups := [{ name := "jobs", concurrency := 5,
                      priorities := defaultPriorities }],
    defaultRetryCount := 3, defaultTimeout := 30, defaultDelay := 0,
    isEnabled := true }

/-- Fresh state holding only `wOk`. -/
def stOk : ServerState :=
  { workers := fun k => if k = "wrk-1" then some wOk else none,
    tasks := [], attempts := [], brokerCalls := [] }

/-- A well-formed create request for `wOk` with no caller-supplied task id. -/
def reqOk : CreateTaskRequest :=
  { workerName := "wrk-1", queue := "jobs", payload := "p" }

/-- The enqueue params `CreateTask` builds for `reqOk` (mint `genDemo`). -/
def pOk : EnqueueParams :=
  { taskType := "wrk-1:jobs", taskKey := genDemo, queue := "wrk-1:jobs",
    maxRetry := 3, timeoutSeconds := 30, delaySeconds := 0, runAt := none,
    payload := "p" }

/-- The broker submission `CreateTask` makes for `reqOk`. -/
def subOk : Submission :=
  { taskType := "wrk-1:jobs", msgID := genDemo, msgTaskID := genDemo,
    msgPayload := "p", opts := enqueueOptions pOk }

/-- The response `CreateTask` returns for `reqOk`. -/
def respOk : CreateTaskResponse :=
  { taskID := genDemo, workerName := "wrk-1", queue := "jobs",
    status := "enqueued" }

/-- The state after the successful `CreateTask` run on `stOk`. -/
def st2Ok : ServerState :=
  { workers := stOk.workers,
    tasks := [(genDemo,
      { taskID := genDemo, workerName := "wrk-1", queue := "wrk-1:jobs",
        priority := 0, payload := "p", status := "pending",
        lastAttempt := 0 })],
    attempts := [], brokerCalls := [subOk] }

theorem create_task_unique_witness :
    newTaskID [0, 0, 0, 0, 0, 0, 0, 0, 0, 0, 0, 0, 0, 0, 0, 1] ≠ ""
    ∧ AsynqOption.unique 24 ∉ enqueueOptions ({} : EnqueueParams)
    ∧ AsynqOption.unique 24 ∈ subOk.opts := by
  have h := create_task_unique_directive
  refine ⟨h.1 _ (by decide), h.2.1 {} rfl 24, ?_⟩
  obtain ⟨sub, hcalls, hmem⟩ := h.2.2 genDemo true stOk reqOk respOk st2Ok
    (by decide) rfl
  have hsub : subOk = sub := by
    simpa [st2Ok, stOk] using hcalls
  rw [hsub]
  exact hmem

/-! ## Routing keys (`Config.FullQueueName`, SDK `fullQueueName`, `CreateTask`) -/

theorem length_pos_of_ne_empty (p : String) (h : p ≠ "") : 0 < p.length := by
  cases p with
  | mk data =>
    cases data with
    | nil => exact absurd rfl h
    | cons c cs => simp [String.length]

theorem foldl_queue_no_queueOpt (l : List AsynqOption) (acc : String)
    (h : ∀ q, AsynqOption.queueOpt q ∉ l) :
    List.foldl (fun a o => match o with
      | AsynqOption.queueOpt q => q
      | _ => a) acc l = acc := by
  induction l generalizing acc with
  | nil => rfl
  | cons o rest ih =>
    have hrest : ∀ q, AsynqOption.queueOpt q ∉ rest :=
      fun q hq => h q (List.mem_cons_of_mem _ hq)
    cases o with
    | queueOpt q => exact absurd (List.mem_cons_self _ _) (h q)
    | maxRetry n => simp only [List.foldl_cons]; exact ih _ hrest
    | timeout n => simp only [List.foldl_cons]; exact ih _ hrest
    | processIn n => simp only [List.foldl_cons]; exact ih _ hrest
    | processAt n => simp only [List.foldl_cons]; exact ih _ hrest
    | unique n => simp only [List.foldl_cons]; exact ih _ hrest

theorem no_queueOpt_tail (p : EnqueueParams) (q2 : String) :
    AsynqOption.queueOpt q2 ∉
      ((if p.maxRetry > 0 then [AsynqOption.maxRetry p.maxRetry] else []) ++
       ((if p.timeoutSeconds > 0 then [AsynqOption.timeout p.timeoutSeconds] else []) ++
        ((if p.delaySeconds > 0 then [AsynqOption.processIn p.delaySeconds] else []) ++
         ((match p.runAt with
           | some t => if t ≠ 0 then [AsynqOption.processAt t] else []
           | none => []) ++
          (if p.taskKey = "" then [] else [AsynqOption.unique 24]))))) := by
  intro hm
  simp only [List.mem_append] at hm
  rcases hm with hm | hm | hm | hm | hm <;> split at hm <;> simp_all

theorem queueName_of_enqueueOptions (p : EnqueueParams) (sub : Submission)
    (hopts : sub.opts = enqueueOptions p) (hq : p.queue ≠ "") :
    sub.queueName = p.queue := by
  unfold Submission.queueName
  rw [hopts]
  unfold enqueueOptions
  rw [if_neg hq]
  simp only [List.append_assoc, List.singleton_append, List.foldl_cons]
  exact foldl_queue_no_queueOpt _ _ (no_queueOpt_tail p)

/-- The success shape of `CreateTask`: the one submission it makes, with its
    full parameter set. -/
theorem createTask_ok_shape (gen : String) (accepts : Bool) (st : ServerState)
    (req : CreateTaskRequest) (resp : CreateTaskResponse) (st2 : ServerState)
    (h : createTask gen accepts st req = (.ok resp, st2)) :
    validateWorkerName req.workerName = true
    ∧ ∃ cfg, st.workers req.workerName = some cfg
      ∧ st2.brokerCalls = st.brokerCalls ++
        [{ taskType := req.workerName ++ ":" ++ req.queue,
           msgID := if req.taskID = "" then gen else req.taskID,
           msgTaskID := if req.taskID = "" then gen else req.taskID,
           msgPayload := req.payload,
           opts := enqueueOptions
             { taskType := req.workerName ++ ":" ++ req.queue,
               taskKey := if req.taskID = "" then gen else req.taskID,
               queue := req.workerName ++ ":" ++ req.queue,
               maxRetry := cfg.defaultRetryCount,
               timeoutSeconds := cfg.defaultTimeout,
               delaySeconds := req.delaySeconds, runAt := req.runAt,
               payload := req.payload } }] := by
  rcases createTask_cases gen accepts st req with ⟨e, he⟩ | hpos
  · rw [he] at h
    simp at h
  · obtain ⟨p1, p2, p3, p4, cfg, hw, p6, p7⟩ := hpos
    have hnot3 : ¬(¬req.taskID = "" ∧ validateTaskID req.taskID = false) := by
      rcases p3 with p3 | p3
      · exact fun hc => hc.1 p3
      · intro hc
        rw [p3] at hc
        exact absurd hc.2 (by simp)
    have hnot4 : ¬(maxPayloadSize < req.payload.utf8ByteSize) := not_lt.mpr p4
    cases accepts with
    | false =>
      simp [createTask, p1, p2, hnot3, hnot4, hw, p6, p7] at h
    | true =>
      simp [createTask, p1, p2, hnot3, hnot4, hw, p6, p7, Prod.mk.injEq] at h
      obtain ⟨hresp, hst2⟩ := h
      subst hst2
      exact ⟨p1, cfg, hw, rfl⟩

/-- Counterexample to C8 as stated: on a concrete successful `CreateTask`
    for worker `wrk-1` and queue group `jobs`, the queue actually enqueued
    under is the two-part name `wrk-1:jobs`, while `Config.FullQueueName`
    (and the SDK `fullQueueName`) for the same components and any priority
    produce the three-part key, e.g. `wrk-1:jobs:default` — so the enqueue
    side and the worker side do not reconstruct identical strings. -/
theorem routing_key_cex :
    (createTask genDemo true stOk reqOk).2.brokerCalls.map Submission.queueName
      = ["wrk-1:jobs"]
    ∧ wOk.fullQueueName "jobs" "default" = "wrk-1:jobs:default"
    ∧ SdkWorker.fullQueueName { workerName := "wrk-1" } "jobs" "default"
      = "wrk-1:jobs:default"
    ∧ ("wrk-1:jobs" : String) ≠ "wrk-1:jobs:default" := by
  exact ⟨rfl, rfl, rfl, by decide⟩

/-- C8 (amended): the routing key is the pure three-component concatenation
    `w ++ ":" ++ g ++ ":" ++ p`; the server-side `Config.FullQueueName` and
    the SDK-side `Worker.fullQueueName` reconstruct it byte-identically for
    all inputs; but the queue under which `CreateTask` actually enqueues is
    the two-part name `worker_name ++ ":" ++ queue`, which differs from the
    three-part routing key for every non-empty priority name. -/
theorem routing_key_agreement :
    (∀ (c : Config) (g p : String),
      c.fullQueueName g p = routingKey c.workerName g p)
    ∧ (∀ (w : SdkWorker) (g p : String),
      w.fullQueueName g p = routingKey w.workerName g p)
    ∧ (∀ (gen : String) (accepts : Bool) (st : ServerState)
        (req : CreateTaskRequest) (resp : CreateTaskResponse) (st2 : ServerState),
        createTask gen accepts st req = (.ok resp, st2) →
        ∃ sub, st2.brokerCalls = st.brokerCalls ++ [sub]
          ∧ sub.queueName = req.workerName ++ ":" ++ req.queue)
    ∧ (∀ (wn gn p : String), p ≠ "" → wn ++ ":" ++ gn ≠ routingKey wn gn p) := by
  refine ⟨fun _ _ _ => rfl, fun _ _ _ => rfl, ?_, ?_⟩
  · intro gen accepts st req resp st2 h
    obtain ⟨p1, cfg, hw, hcalls⟩ := createTask_ok_shape gen accepts st req resp st2 h
    have hwn : 3 ≤ req.workerName.length := by
      have hh := p1
      unfold validateWorkerName at hh
      simp only [Bool.and_eq_true, decide_eq_true_eq] at hh
      exact hh.1.1
    have hfq : req.workerName ++ ":" ++ req.queue ≠ "" := by
      intro hc
      have hl := congrArg String.length hc
      simp only [String.length_append,
        show (":" : String).length = 1 from rfl,
        show ("" : String).length = 0 from rfl] at hl
      omega
    refine ⟨_, hcalls, ?_⟩
    exact queueName_of_enqueueOptions
      { taskType := req.workerName ++ ":" ++ req.queue,
        taskKey := if req.taskID = "" then gen else req.taskID,
        queue := req.workerName ++ ":" ++ req.queue,
        maxRetry := cfg.defaultRetryCount,
        timeoutSeconds := cfg.defaultTimeout,
        delaySeconds := req.delaySeconds, runAt := req.runAt,
        payload := req.payload } _ rfl hfq
  · intro wn gn p hp hc
    have hlen := congrArg String.length hc
    simp only [routingKey, String.length_append,
      show (":" : String).length = 1 from rfl] at hlen
    have := length_pos_of_ne_empty p hp
    omega

theorem routing_key_agreement_witness :
    wOk.fullQueueName "jobs" "critical"
      = routingKey wOk.workerName "jobs" "critical"
    ∧ ("wrk-1" ++ ":" ++ "jobs" : String) ≠ routingKey "wrk-1" "jobs" "default"
    ∧ Submission.queueName subOk = "wrk-1" ++ ":" ++ "jobs" := by
  have h := routing_key_agreement
  refine ⟨h.1 wOk "jobs" "critical", h.2.2.2 "wrk-1" "jobs" "default" (by decide), ?_⟩
  obtain ⟨sub, hcalls, hqn⟩ :=
    h.2.2.1 genDemo true stOk reqOk respOk st2Ok rfl
  have hsub : subOk = sub := by
    simpa [st2Ok, stOk] using hcalls
  rw [hsub]
  exact hqn

/-! ## Reporting backoff (`sdk.ReportWithRetry`) -/

theorem backoffSeq_eq_iterate (cfg : ReportRetryConfig) (n : Nat) :
    backoffSeq cfg n = (nextBackoff cfg)^[n] cfg.initialBackoff := by
  induction n with
  | zero => rfl
  | succ n ih => rw [backoffSeq, ih, Function.iterate_succ_apply']

theorem range_map_iterate (f : Nat → Nat) (b : Nat) (k : Nat) :
    (List.range (k + 1)).map (fun i => f^[i] b)
      = b :: (List.range k).map (fun i => f^[i] (f b)) := by
  rw [List.range_succ_eq_map]
  simp only [List.map_cons, List.map_map, Function.iterate_zero, id_eq]
  congr 1

/-- Every run of the loop makes at most one report call per allowed
    iteration. -/
theorem reportLoop_calls_le (cfg : ReportRetryConfig) (ce : Nat → Option String)
    (cc : Nat → Bool) :
    ∀ (remaining a b : Nat) (e : String) (w : List Nat),
      (reportLoop cfg ce cc remaining a b e w).calls ≤ a + remaining := by
  intro remaining
  induction remaining with
  | zero =>
    intro a b e w
    show (ReportOutcome.exhausted _ a w).calls ≤ a + 0
    show a ≤ a + 0
    omega
  | succ r ih =>
    intro a b e w
    simp only [reportLoop]
    by_cases ha : a > 0
    · rw [if_pos ha]
      by_cases hcc : cc a = true
      · rw [if_pos hcc]
        show a ≤ a + (r + 1)
        omega
      · rw [if_neg hcc]
        cases hce : ce a with
        | none =>
          show a + 1 ≤ a + (r + 1)
          omega
        | some e2 =>
          show (reportLoop cfg ce cc r (a + 1) (nextBackoff cfg b) e2 (w ++ [b])).calls
            ≤ a + (r + 1)
          have := ih (a + 1) (nextBackoff cfg b) e2 (w ++ [b])
          omega
    · rw [if_neg ha]
      cases hce : ce a with
      | none =>
        show a + 1 ≤ a + (r + 1)
        omega
      | some e2 =>
        show (reportLoop cfg ce cc r (a + 1) b e2 w).calls ≤ a + (r + 1)
        have := ih (a + 1) b e2 w
        omega

/-- From a strictly positive attempt, if the first `k` calls fail, the
    `(k+1)`-st succeeds and no wait is cancelled, the loop succeeds after
    exactly `k + 1` more calls, having waited the geometric backoff chain
    starting at `b`. -/
theorem reportLoop_success_pos (cfg : ReportRetryConfig)
    (ce : Nat → Option String) (cc : Nat → Bool) :
    ∀ (k remaining a b : Nat) (e : String) (w : List Nat),
      1 ≤ a → k < remaining →
      (∀ j, j < k → ce (a + j) ≠ none) →
      ce (a + k) = none →
      (∀ j, j ≤ k → cc (a + j) = false) →
      reportLoop cfg ce cc remaining a b e w
        = .success (a + k + 1)
            (w ++ (List.range (k + 1)).map (fun i => (nextBackoff cfg)^[i] b)) := by
  intro k
  induction k with
  | zero =>
    intro remaining a b e w ha hrem hfail hsucc hcc
    cases remaining with
    | zero => omega
    | succ r =>
      have hcc0 : cc a = false := by simpa using hcc 0 (le_refl _)
      have hsucc0 : ce a = none := by simpa using hsucc
      simp only [reportLoop, if_pos (show a > 0 from ha), hcc0,
        Bool.false_eq_true, if_false, hsucc0]
      rfl
  | succ k ih =>
    intro remaining a b e w ha hrem hfail hsucc hcc
    cases remaining with
    | zero => omega
    | succ r =>
      have hcc0 : cc a = false := by simpa using hcc 0 (Nat.zero_le _)
      simp only [reportLoop, if_pos (show a > 0 from ha), hcc0,
        Bool.false_eq_true, if_false]
      cases hce : ce a with
      | none => exact absurd hce (by simpa using hfail 0 (Nat.succ_pos _))
      | some e2 =>
        show reportLoop cfg ce cc r (a + 1) (nextBackoff cfg b) e2 (w ++ [b]) = _
        have hres := ih r (a + 1) (nextBackoff cfg b) e2 (w ++ [b]) (by omega) (by omega)
          (by intro j hj
              have := hfail (j + 1) (by omega)
              rwa [show a + (j + 1) = a + 1 + j by omega] at this)
          (by have := hsucc
              rwa [show a + (k + 1) = a + 1 + k by omega] at this)
          (by intro j hj
              have := hcc (j + 1) (by omega)
              rwa [show a + (j + 1) = a + 1 + j by omega] at this)
        rw [hres, range_map_iterate]
        congr 1
        · omega
        · simp [List.append_assoc]

/-- From a strictly positive attempt, if the first `k` calls fail, the waits
    before them are not cancelled, and the wait before the `(k+1)`-st call is
    cancelled, the loop returns the context error having made exactly `k`
    more calls. -/
theorem reportLoop_cancel_pos (cfg : ReportRetryConfig)
    (ce : Nat → Option String) (cc : Nat → Bool) :
    ∀ (k remaining a b : Nat) (e : String) (w : List Nat),
      1 ≤ a → k < remaining →
      (∀ j, j < k → ce (a + j) ≠ none) →
      (∀ j, j < k → cc (a + j) = false) →
      cc (a + k) = true →
      reportLoop cfg ce cc remaining a b e w
        = .ctxCancelled (a + k)
            (w ++ (List.range k).map (fun i => (nextBackoff cfg)^[i] b)) := by
  intro k
  induction k with
  | zero =>
    intro remaining a b e w ha hrem hfail hccf hcancel
    cases remaining with
    | zero => omega
    | succ r =>
      have hcan0 : cc a = true := by simpa using hcancel
      simp only [reportLoop, if_pos (show a > 0 from ha), hcan0, if_true]
      simp
  | succ k ih =>
    intro remaining a b e w ha hrem hfail hccf hcancel
    cases remaining with
    | zero => omega
    | succ r =>
      have hcc0 : cc a = false := by simpa using hccf 0 (Nat.succ_pos _)
      simp only [reportLoop, if_pos (show a > 0 from ha), hcc0,
        Bool.false_eq_true, if_false]
      cases hce : ce a with
      | none => exact absurd hce (by simpa using hfail 0 (Nat.succ_pos _))
      | some e2 =>
        show reportLoop cfg ce cc r (a + 1) (nextBackoff cfg b) e2 (w ++ [b]) = _
        have hres := ih r (a + 1) (nextBackoff cfg b) e2 (w ++ [b]) (by omega) (by omega)
          (by intro j hj
              have := hfail (j + 1) (by omega)
              rwa [show a + (j + 1) = a + 1 + j by omega] at this)
          (by intro j hj
              have := hccf (j + 1) (by omega)
              rwa [show a + (j + 1) = a + 1 + j by omega] at this)
          (by have := hcancel
              rwa [show a + (k + 1) = a + 1 + k by omega] at this)
        rw [hres, range_map_iterate]
        congr 1
        · omega
        · simp [List.append_assoc]

/-- From a strictly positive attempt, if every remaining call fails and no
    wait is cancelled, the loop exhausts its budget and wraps the error of
    the last call. -/
theorem reportLoop_exhaust_pos (cfg : ReportRetryConfig)
    (errs : Nat → String) (cc : Nat → Bool) :
    ∀ (remaining a b : Nat) (e : String) (w : List Nat),
      1 ≤ a →
      (∀ j, j < remaining → cc (a + j) = false) →
      reportLoop cfg (fun j => some (errs j)) cc remaining a b e w
        = .exhausted
            ("上报失败，已达最大重试次数: " ++
              (if remaining = 0 then e else errs (a + remaining - 1)))
            (a + remaining)
            (w ++ (List.range remaining).map (fun i => (nextBackoff cfg)^[i] b)) := by
  intro remaining
  induction remaining with
  | zero =>
    intro a b e w ha hcc
    simp [reportLoop]
  | succ r ih =>
    intro a b e w ha hcc
    have hcc0 : cc a = false := by simpa using hcc 0 (Nat.succ_pos _)
    simp only [reportLoop, if_pos (show a > 0 from ha), hcc0,
      Bool.false_eq_true, if_false]
    show reportLoop cfg (fun j => some (errs j)) cc r (a + 1)
        (nextBackoff cfg b) (errs a) (w ++ [b]) = _
    have hres := ih (a + 1) (nextBackoff cfg b) (errs a) (w ++ [b]) (by omega)
      (by intro j hj
          have := hcc (j + 1) (by omega)
          rwa [show a + (j + 1) = a + 1 + j by omega] at this)
    rw [hres, range_map_iterate, show a + 1 + r = a + (r + 1) by omega]
    by_cases hr : r = 0
    · subst hr
      simp
    · rw [if_neg hr, if_neg (by omega : ¬r + 1 = 0)]
      simp [List.append_assoc]

/-- C9: `ReportWithRetry` performs at most `MaxRetries + 1` report calls and
    returns success as soon as one call succeeds; before each retry it waits
    the current backoff, which starts at `InitialBackoff` and is multiplied
    by the factor after each wait with a cap of `MaxBackoff` (the chain
    `backoffSeq`); if the context is cancelled during a wait it returns the
    context error without issuing further calls; after exhausting all
    retries it returns an error wrapping the last report error. -/
theorem report_with_retry_spec :
    (∀ (cfg : ReportRetryConfig) (ce : Nat → Option String) (cc : Nat → Bool),
      (reportWithRetry cfg ce cc).calls ≤ cfg.maxRetries + 1)
    ∧ (∀ (cfg : ReportRetryConfig) (ce : Nat → Option String) (cc : Nat → Bool)
        (k : Nat),
        k ≤ cfg.maxRetries →
        (∀ j, j < k → ce j ≠ none) → ce k = none →
        (∀ j, 1 ≤ j → j ≤ k → cc j = false) →
        reportWithRetry cfg ce cc
          = .success (k + 1) ((List.range k).map (backoffSeq cfg)))
    ∧ (∀ (cfg : ReportRetryConfig) (ce : Nat → Option String) (cc : Nat → Bool)
        (k : Nat),
        1 ≤ k → k ≤ cfg.maxRetries →
        (∀ j, j < k → ce j ≠ none) →
        (∀ j, 1 ≤ j → j < k → cc j = false) → cc k = true →
        reportWithRetry cfg ce cc
          = .ctxCancelled k ((List.range (k - 1)).map (backoffSeq cfg)))
    ∧ (∀ (cfg : ReportRetryConfig) (errs : Nat → String) (cc : Nat → Bool),
        (∀ j, 1 ≤ j → j ≤ cfg.maxRetries → cc j = false) →
        reportWithRetry cfg (fun j => some (errs j)) cc
          = .exhausted ("上报失败，已达最大重试次数: " ++ errs cfg.maxRetries)
              (cfg.maxRetries + 1)
              ((List.range cfg.maxRetries).map (backoffSeq cfg))) := by
  refine ⟨?_, ?_, ?_, ?_⟩
  · intro cfg ce cc
    have := reportLoop_calls_le cfg ce cc (cfg.maxRetries + 1) 0
      cfg.initialBackoff "" []
    simpa [reportWithRetry] using this
  · intro cfg ce cc k hk hfail hsucc hcc
    cases k with
    | zero =>
      simp only [reportWithRetry, reportLoop, if_neg (by omega : ¬(0:Nat) > 0), hsucc]
      simp
    | succ kp =>
      cases hce : ce 0 with
      | none => exact absurd hce (by simpa using hfail 0 (Nat.succ_pos _))
      | some e2 =>
        have hstep : reportWithRetry cfg ce cc
            = reportLoop cfg ce cc cfg.maxRetries 1 cfg.initialBackoff e2 [] := by
          simp only [reportWithRetry, reportLoop,
            if_neg (by omega : ¬(0:Nat) > 0), hce]
        have hres := reportLoop_success_pos cfg ce cc kp cfg.maxRetries 1
          cfg.initialBackoff e2 [] (le_refl 1) (by omega)
          (by intro j hj
              have := hfail (j + 1) (by omega)
              rwa [show (j + 1 : Nat) = 1 + j by omega] at this)
          (by have := hsucc
              rwa [show (kp + 1 : Nat) = 1 + kp by omega] at this)
          (by intro j hj
              have := hcc (j + 1) (by omega) (by omega)
              rwa [show (j + 1 : Nat) = 1 + j by omega] at this)
        rw [hstep, hres]
        simp only [List.nil_append]
        congr 1
        · omega
        · apply List.map_congr_left
          intro i _
          exact (backoffSeq_eq_iterate cfg i).symm
  · intro cfg ce cc k h1 hk hfail hccf hcancel
    cases k with
    | zero => omega
    | succ kp =>
      cases hce : ce 0 with
      | none => exact absurd hce (by simpa using hfail 0 (Nat.succ_pos _))
      | some e2 =>
        have hstep : reportWithRetry cfg ce cc
            = reportLoop cfg ce cc cfg.maxRetries 1 cfg.initialBackoff e2 [] := by
          simp only [reportWithRetry, reportLoop,
            if_neg (by omega : ¬(0:Nat) > 0), hce]
        have hres := reportLoop_cancel_pos cfg ce cc kp cfg.maxRetries 1
          cfg.initialBackoff e2 [] (le_refl 1) (by omega)
          (by intro j hj
              have := hfail (j + 1) (by omega)
              rwa [show (j + 1 : Nat) = 1 + j by omega] at this)
          (by intro j hj
              have := hccf (j + 1) (by omega) (by omega)
              rwa [show (j + 1 : Nat) = 1 + j by omega] at this)
          (by have := hcancel
              rwa [show (kp + 1 : Nat) = 1 + kp by omega] at this)
        rw [hstep, hres]
        simp only [List.nil_append, Nat.add_sub_cancel]
        congr 1
        · omega
        · apply List.map_congr_left
          intro i _
          exact (backoffSeq_eq_iterate cfg i).symm
  · intro cfg errs cc hcc
    have hstep : reportWithRetry cfg (fun j => some (errs j)) cc
        = reportLoop cfg (fun j => some (errs j)) cc cfg.maxRetries 1
            cfg.initialBackoff (errs 0) [] := by
      simp only [reportWithRetry, reportLoop, if_neg (by omega : ¬(0:Nat) > 0)]
    have hres := reportLoop_exhaust_pos cfg errs cc cfg.maxRetries 1
      cfg.initialBackoff (errs 0) [] (le_refl 1)
      (by intro j hj
          have := hcc (j + 1) (by omega) (by omega)
          rwa [show (j + 1 : Nat) = 1 + j by omega] at this)
    rw [hstep, hres]
    simp only [List.nil_append]
    congr 1
    · congr 1
      by_cases hm : cfg.maxRetries = 0
      · rw [hm]
        simp
      · rw [if_neg hm, show (1 : Nat) + cfg.maxRetries - 1 = cfg.maxRetries by omega]
    · omega
    · apply List.map_congr_left
      intro i _
      exact (backoffSeq_eq_iterate cfg i).symm

theorem report_with_retry_witness :
    reportWithRetry defaultReportRetryConfig
        (fun j => if j < 2 then some "boom" else none) (fun _ => false)
      = .success 3 [1000000000, 2000000000]
    ∧ reportWithRetry defaultReportRetryConfig (fun _ => some "boom")
        (fun _ => false)
      = .exhausted ("上报失败，已达最大重试次数: " ++ "boom") 4
          [1000000000, 2000000000, 4000000000]
    ∧ reportWithRetry defaultReportRetryConfig (fun _ => some "boom")
        (fun j => decide (j = 2))
      = .ctxCancelled 2 [1000000000]
    ∧ (reportWithRetry defaultReportRetryConfig (fun _ => some "boom")
        (fun _ => false)).calls ≤ 4 := by
  have h := report_with_retry_spec
  refine ⟨?_, ?_, ?_, ?_⟩
  · rw [h.2.1 defaultReportRetryConfig _ _ 2 (by decide)
      (by intro j hj; simp [hj])
      (by simp)
      (fun j _ _ => rfl)]
    decide
  · rw [h.2.2.2 defaultReportRetryConfig (fun _ => "boom") (fun _ => false)
      (fun j _ _ => rfl)]
    decide
  · rw [h.2.2.1 defaultReportRetryConfig _ _ 2 (by decide) (by decide)
      (by intro j hj; simp)
      (by intro j hj1 hj2
          have : j = 1 := by omega
          subst this
          rfl)
      (by rfl)]
    decide
  · exact h.1 defaultReportRetryConfig _ _

/-! ## Disabled-worker guard -/

/-- C10: the `is_enabled` guard is enforced only by `CreateTask`: for a
    terminal task whose worker config exists but is disabled, `ReplayTask`
    still submits to the broker and creates a new pending row, and
    `BatchRetry` over that candidate retries it, while `CreateTask` for the
    same worker is rejected with the disabled error and no broker call. -/
theorem disabled_worker_guard_only_create
    (st : ServerState) (tid gen : String) (t : Task) (cfg : Config)
    (req : CreateTaskRequest)
    (ht : getTaskRow st.tasks tid = some t)
    (hterm : t.status = "success" ∨ t.status = "fail")
    (hcfg : st.workers t.workerName = some cfg)
    (hdis : cfg.isEnabled = false)
    (hreqw : req.workerName = t.workerName)
    (hv1 : validateWorkerName req.workerName = true)
    (hv2 : validateQueueName req.queue = true)
    (hv3 : req.taskID = "")
    (hv4 : req.payload.utf8ByteSize ≤ maxPayloadSize) :
    (∃ st2, replayTask gen true st tid { delay := 0 }
        = (.ok { status := "replayed", newTaskID := gen }, st2)
      ∧ st2.brokerCalls.length = st.brokerCalls.length + 1
      ∧ getTaskRow st2.tasks gen
        = some { taskID := gen, workerName := t.workerName, queue := t.queue,
                 priority := t.priority, payload := t.payload,
                 status := "pending", lastAttempt := 0 })
    ∧ createTask gen true st req = (.error (.badRequest "worker 未启用"), st)
    ∧ (∃ resp st3,
        batchRetry (fun _ => gen) (fun _ => true) st { taskIDs := [tid] }
          = (.ok resp, st3) ∧ resp.totalRetried = 1) := by
  refine ⟨?_, ?_, ?_⟩
  · have hcond : (decide (t.status ≠ "success") && decide (t.status ≠ "fail")) = false := by
      rcases hterm with h | h <;> simp [h]
    simp only [replayTask, ht, hcond, hcfg, Bool.false_eq_true, if_false,
      Bool.not_true]
    refine ⟨_, rfl, ?_, ?_⟩
    · simp
    · exact getTaskRow_upsert_self _ _
  · have hw2 : st.workers req.workerName = some cfg := by rw [hreqw]; exact hcfg
    have hnot3 : ¬(¬req.taskID = "" ∧ validateTaskID req.taskID = false) :=
      fun hc => hc.1 hv3
    have hnot4 : ¬(maxPayloadSize < req.payload.utf8ByteSize) := not_lt.mpr hv4
    simp [createTask, hv1, hv2, hnot3, hnot4, hw2, hdis]
  · have hloop2 : (batchLoop (fun _ => gen) (fun _ => true) [tid] st 0 []).2
        = [gen] := by
      simp only [batchLoop, ht, hcfg, if_true]
      simp
    rcases hbl : batchLoop (fun _ => gen) (fun _ => true) [tid] st 0 []
      with ⟨s3, ns⟩
    have hns : ns = [gen] := by
      have := hloop2
      rw [hbl] at this
      exact this
    refine ⟨{ status := "ok", totalRetried := ns.length, newTaskIDs := ns },
      s3, ?_, ?_⟩
    · simp [batchRetry, hbl]
    · rw [hns]
      rfl

/-- A disabled worker. -/
def wDis : Config :=
  { workerName := "wrk-2",
    queueGroups := [{ name := "jobs", concurrency := 5,
                      priorities := defaultPriorities }],
    defaultRetryCount := 3, defaultTimeout := 30, defaultDelay := 0,
    isEnabled := false }

/-- A terminal (failed) task of the disabled worker. -/
def tC10 : Task :=
  { taskID := "t-10", workerName := "wrk-2", queue := "wrk-2:jobs",
    payload := "p10", status := "fail", lastAttempt := 2 }

/-- State with the disabled worker and its terminal task. -/
def stC10 : ServerState :=
  { workers := fun k => if k = "wrk-2" then some wDis else none,
    tasks := [("t-10", tC10)], attempts := [], brokerCalls := [] }

/-- A valid create request aimed at the disabled worker. -/
def reqC10 : CreateTaskRequest :=
  { workerName := "wrk-2", queue := "jobs", payload := "p" }

theorem disabled_worker_guard_witness :
    (replayTask genDemo true stC10 "t-10" { delay := 0 }).1
      = .ok { status := "replayed", newTaskID := genDemo }
    ∧ getTaskRow (replayTask genDemo true stC10 "t-10" { delay := 0 }).2.tasks genDemo
      = some { taskID := genDemo, workerName := "wrk-2", queue := "wrk-2:jobs",
               priority := 0, payload := "p10", status := "pending",
               lastAttempt := 0 }
    ∧ createTask genDemo true stC10 reqC10
      = (.error (.badRequest "worker 未启用"), stC10)
    ∧ (Except.toOption (batchRetry (fun _ => genDemo) (fun _ => true) stC10
        { taskIDs := ["t-10"] }).1).map BatchRetryResponse.totalRetried
      = some 1 := by
  obtain ⟨⟨st2, heq, hlen, hnew⟩, hcreate, ⟨resp, st3, heq3, htot⟩⟩ :=
    disabled_worker_guard_only_create stC10 "t-10" genDemo tC10 wDis reqC10
      (by decide) (Or.inr (by decide)) rfl rfl rfl (by decide) (by decide)
      rfl (by decide)
  refine ⟨by rw [heq], by rw [heq]; exact hnew, hcreate, ?_⟩
  rw [heq3]
  simp [Except.toOption, htot]

end AsynqHub
